import Mathlib

/-!
Verification development for the LLM-orchestration layer of the
philosophical-concepts service (`src/services/claude.service.ts`,
`src/services/prompt-template.service.ts`).

The TypeScript code is shallowly embedded: every definition below mirrors a
function (or an inline code block) of the source.  Strings are modelled as
`List Char`; the concrete regular expressions of the source are hand-compiled
to total scanning functions that reproduce the JavaScript engine's
leftmost-match, greedy/lazy backtracking behaviour for exactly those patterns.
JavaScript `\s` is modelled by the six ASCII whitespace characters that can
occur in the inputs considered here; `String.prototype.toLowerCase` is
modelled on the ASCII and Cyrillic ranges, the only ones the source's
vocabularies use.  Wall-clock times (`Date.now()`, `created_at` fields) are
modelled as `Unit` since no claim depends on them.
-/

namespace Claude

/-- Opening brace character, written via its code point. -/
def lbrace : Char := Char.ofNat 123

/-- Closing brace character, written via its code point. -/
def rbrace : Char := Char.ofNat 125

/-- Backquote character (used by JavaScript `$`-substitutions). -/
def bquote : Char := Char.ofNat 96

/-- Single-quote character (used by JavaScript `$`-substitutions). -/
def squote : Char := Char.ofNat 39

/-- JavaScript `\s` restricted to the ASCII whitespace characters. -/
def isWSChar (c : Char) : Bool :=
  c = ' ' || c = '\n' || c = '\t' || c = '\x0d' || c = '\x0b' || c = '\x0c'

/-- ASCII decimal digit, JavaScript `\d`. -/
def isDigitChar (c : Char) : Bool :=
  '0' ≤ c && c ≤ '9'

/-- Case folding for ASCII letters and the Cyrillic block used by the
source's keyword vocabularies (А..Я → а..я, Ё → ё). -/
def lowerChar (c : Char) : Char :=
  if 65 ≤ c.toNat && c.toNat ≤ 90 then Char.ofNat (c.toNat + 32)
  else if 0x410 ≤ c.toNat && c.toNat ≤ 0x42F then Char.ofNat (c.toNat + 32)
  else if c.toNat = 0x401 then Char.ofNat 0x451
  else c

/-- Lowercase an entire character list (JavaScript `toLowerCase`). -/
def lowerList (cs : List Char) : List Char := cs.map lowerChar

/-- Literal prefix test on character lists. -/
def startsL : List Char → List Char → Bool
  | [], _ => true
  | _ :: _, [] => false
  | p :: ps, c :: cs => p = c && startsL ps cs

/-- Case-insensitive prefix test (pattern already arbitrary case). -/
def ciStarts : List Char → List Char → Bool
  | [], _ => true
  | _ :: _, [] => false
  | p :: ps, c :: cs => lowerChar p = lowerChar c && ciStarts ps cs

/-- Substring occurrence test (JavaScript `String.prototype.includes`). -/
def hasSub (pat : List Char) : List Char → Bool
  | [] => startsL pat []
  | c :: cs => startsL pat (c :: cs) || hasSub pat cs

/-- JavaScript `String.prototype.trim`: drop whitespace from both ends. -/
def trimL (cs : List Char) : List Char :=
  ((cs.dropWhile isWSChar).reverse.dropWhile isWSChar).reverse

/-- JavaScript `GetSubstitution` for a replacement template with no capture
groups: `$$` → `$`, `$&` → matched text, `$`-backquote → the part of the
original string before the match, `$`-quote → the part after it; any other
`$`-sequence is kept literally. -/
def getSubstitution (matched pre post : List Char) : List Char → List Char
  | [] => []
  | c :: r =>
    if c = '$' then
      match r with
      | [] => ['$']
      | '$' :: r2 => '$' :: getSubstitution matched pre post r2
      | '&' :: r2 => matched ++ getSubstitution matched pre post r2
      | c2 :: r2 =>
        if c2 = bquote then pre ++ getSubstitution matched pre post r2
        else if c2 = squote then post ++ getSubstitution matched pre post r2
        else '$' :: c2 :: getSubstitution matched pre post r2
    else c :: getSubstitution matched pre post r

/-- One global-replace pass (JavaScript `replace` with a `g` regex whose
pattern is the literal `pat`): scan left to right, replace each
non-overlapping occurrence, expanding `$`-substitutions against the original
string `orig` at absolute position `pos`. -/
def replaceJSAux (pat repl orig : List Char) : Nat → List Char → List Char
  | _, [] => []
  | pos, c :: cs =>
    if startsL pat (c :: cs) && pat.length ≠ 0 then
      getSubstitution pat (orig.take pos) (orig.drop (pos + pat.length)) repl
        ++ replaceJSAux pat repl orig (pos + pat.length) (cs.drop (pat.length - 1))
    else
      c :: replaceJSAux pat repl orig (pos + 1) cs
termination_by _ cs => cs.length
decreasing_by
  all_goals simp only [List.length_cons, List.length_drop]
  all_goals omega

/-- JavaScript `s.replace(new RegExp(escapedPat, 'g'), repl)` for a pattern
with no regex metacharacters left active. -/
def replaceJS (s pat repl : List Char) : List Char :=
  replaceJSAux pat repl s 0 s

/-- Position-independent literal replacement; coincides with `replaceJS`
whenever the replacement string contains no `$` (proved below). -/
def replaceLit (pat repl : List Char) : List Char → List Char
  | [] => []
  | c :: cs =>
    if startsL pat (c :: cs) && pat.length ≠ 0 then
      repl ++ replaceLit pat repl (cs.drop (pat.length - 1))
    else
      c :: replaceLit pat repl cs
termination_by cs => cs.length
decreasing_by
  all_goals simp only [List.length_cons, List.length_drop]
  all_goals omega

/-- A list of characters mentions no `$`. -/
def dollarFree (cs : List Char) : Prop := ∀ c ∈ cs, c ≠ '$'

/-- A list of characters mentions neither brace. -/
def braceFree (cs : List Char) : Prop := ∀ c ∈ cs, c ≠ lbrace ∧ c ≠ rbrace

instance decDollarFree (cs : List Char) : Decidable (dollarFree cs) :=
  inferInstanceAs (Decidable (∀ c ∈ cs, c ≠ '$'))

instance decBraceFree (cs : List Char) : Decidable (braceFree cs) :=
  inferInstanceAs (Decidable (∀ c ∈ cs, c ≠ lbrace ∧ c ≠ rbrace))

theorem getSubstitution_of_dollarFree (matched pre post : List Char) :
    ∀ repl : List Char, dollarFree repl →
      getSubstitution matched pre post repl = repl := by
  intro repl
  induction repl with
  | nil => intro _; rfl
  | cons c r ih =>
    intro h
    have hc : c ≠ '$' := h c (List.mem_cons_self _ _)
    have hr : dollarFree r := fun x hx => h x (List.mem_cons_of_mem _ hx)
    rw [getSubstitution.eq_def]
    dsimp only
    rw [if_neg hc, ih hr]

theorem replaceJSAux_eq_replaceLit (pat repl orig : List Char)
    (hrepl : dollarFree repl) :
    ∀ cs pos, replaceJSAux pat repl orig pos cs = replaceLit pat repl cs := by
  intro cs
  induction cs using replaceLit.induct pat repl with
  | case1 => intro pos; simp [replaceJSAux, replaceLit]
  | case2 c cs hcond ih =>
    intro pos
    rw [replaceJSAux, replaceLit, if_pos hcond, if_pos hcond,
      getSubstitution_of_dollarFree _ _ _ repl hrepl, ih]
  | case3 c cs hcond ih =>
    intro pos
    rw [replaceJSAux, replaceLit, if_neg hcond, if_neg hcond, ih]

theorem replaceJS_eq_replaceLit (s pat repl : List Char)
    (hrepl : dollarFree repl) : replaceJS s pat repl = replaceLit pat repl s :=
  replaceJSAux_eq_replaceLit pat repl s hrepl s 0

/-- A JSON value, as passed inside a prompt-data record. -/
inductive MicroJson where
  | null : MicroJson
  | bool (b : Bool) : MicroJson
  | num (n : Int) : MicroJson
  | str (s : String) : MicroJson
  | arr (xs : List MicroJson) : MicroJson
  | obj (fields : List (String × MicroJson)) : MicroJson

/-- JSON string escaping for the characters that require it. -/
def jsonEscChar (c : Char) : List Char :=
  if c = '"' then ['\\', '"']
  else if c = '\\' then ['\\', '\\']
  else if c = '\n' then ['\\', 'n']
  else if c = '\t' then ['\\', 't']
  else if c = '\x0d' then ['\\', 'r']
  else [c]

/-- Render a JSON string literal. -/
def jsonQuote (s : String) : List Char :=
  '"' :: (s.data.map jsonEscChar).flatten ++ ['"']

/-- `n` spaces of indentation. -/
def indentN (n : Nat) : List Char := List.replicate n ' '

mutual

/-- `JSON.stringify(v, null, 2)`: pretty printing with two-space indent, the
serialization `preparePrompt` applies to non-string values
(claude-service.ts line 215). -/
def jsonStr : MicroJson → Nat → List Char
  | .null, _ => "null".data
  | .bool true, _ => "true".data
  | .bool false, _ => "false".data
  | .num n, _ => (toString n).data
  | .str s, _ => jsonQuote s
  | .arr [], _ => ['[', ']']
  | .arr (x :: xs), ind =>
    '[' :: '\n' :: jsonStrItems (x :: xs) (ind + 2) ++ '\n' :: indentN ind ++ [']']
  | .obj [], _ => [lbrace, rbrace]
  | .obj (f :: fs), ind =>
    lbrace :: '\n' :: jsonStrFields (f :: fs) (ind + 2) ++ '\n' :: indentN ind ++ [rbrace]

/-- Comma-and-newline separated array items, each indented. -/
def jsonStrItems : List MicroJson → Nat → List Char
  | [], _ => []
  | [x], ind => indentN ind ++ jsonStr x ind
  | x :: y :: xs, ind =>
    indentN ind ++ jsonStr x ind ++ ',' :: '\n' :: jsonStrItems (y :: xs) ind

/-- Comma-and-newline separated object fields, each indented. -/
def jsonStrFields : List (String × MicroJson) → Nat → List Char
  | [], _ => []
  | [(k, v)], ind => indentN ind ++ jsonQuote k ++ ':' :: ' ' :: jsonStr v ind
  | (k, v) :: f :: fs, ind =>
    indentN ind ++ jsonQuote k ++ ':' :: ' ' :: jsonStr v ind
      ++ ',' :: '\n' :: jsonStrFields (f :: fs) ind

end

/-- A value bound to a template parameter in the `data` record handed to
`preparePrompt` (`Record<string, any>`).  `pstr` is the `typeof == 'string'`
case, `pnum`/`pbool` are primitives coerced by `String.prototype.replace`,
and `pjson` is the `typeof == 'object'` case serialized with
`JSON.stringify(value, null, 2)`. -/
inductive PValue where
  | pstr (s : String) : PValue
  | pnum (n : Int) : PValue
  | pbool (b : Bool) : PValue
  | pjson (j : MicroJson) : PValue

/-- The replacement text actually handed to `replace` for a bound value. -/
def valueToText : PValue → List Char
  | .pstr s => s.data
  | .pnum n => (toString n).data
  | .pbool true => "true".data
  | .pbool false => "false".data
  | .pjson j => jsonStr j 0

/-- Prompt template record (type-definitions.ts lines 422-429; the optional
metadata fields do not influence rendering and are omitted). -/
structure PromptTemplate where
  name : String
  description : String
  template : String
  parameters : List String
deriving DecidableEq

/-- First-match association lookup, modelling property access `data[param]`
on a record literal. -/
def lookupP (data : List (String × PValue)) (k : String) : Option PValue :=
  match data.find? (fun kv => kv.1 = k) with
  | some kv => some kv.2
  | none => none

/-- The literal text `\x7b\x7bparam\x7d\x7d` that the constructed regex
`new RegExp('\\\x7b\\\x7b' + param + '\\\x7d\\\x7d', 'g')` matches
(claude-service.ts line 207).  The parameter name is interpolated into the
pattern unescaped, so this literal reading is exact precisely for names
without regex metacharacters — the `wordLike` names below, which cover all
of the repository's template parameters; a name such as `a+b` or `a(b`
would make the real regex miss the literal placeholder or throw at
construction, and is outside the model (the rendering theorems restrict
their parameter names accordingly). -/
def placeholderOf (p : String) : List Char :=
  lbrace :: lbrace :: p.data ++ [rbrace, rbrace]

/-- One iteration of the substitution loop of `preparePrompt`
(claude-service.ts lines 206-219): a missing parameter is replaced by the
empty string (after a warning), a bound one by its (possibly serialized)
text.  The constructed regex is modelled as the literal placeholder text,
which is faithful exactly for `wordLike` parameter names (no regex
metacharacters); the rendering theorems quantify only over such names. -/
def substituteParam (data : List (String × PValue)) (prompt : List Char)
    (param : String) : List Char :=
  match lookupP data param with
  | none => replaceJS prompt (placeholderOf param) []
  | some v => replaceJS prompt (placeholderOf param) (valueToText v)

/-- The substitution loop of `preparePrompt`, processing the given list of
parameter names in order. -/
def preparePromptWith (order : List String) (tpl : PromptTemplate)
    (data : List (String × PValue)) : List Char :=
  order.foldl (substituteParam data) tpl.template.data

/-- `preparePrompt` (claude-service.ts lines 196-226) once the template has
been found: fold the substitution loop over the template's declared
parameters, in declaration order.  The template-not-found throw is modelled
separately by the template-store embedding. -/
def preparePrompt (tpl : PromptTemplate) (data : List (String × PValue)) :
    List Char :=
  preparePromptWith tpl.parameters tpl data

/-- Structured view of a template text: literal chunks interleaved with
declared placeholders.  A template is well formed when it is the rendering
of such a token list whose literal chunks contain no brace. -/
inductive TTok where
  | lit (l : List Char) : TTok
  | ph (p : String) : TTok

/-- Text of one token. -/
def renderTok : TTok → List Char
  | .lit l => l
  | .ph p => placeholderOf p

/-- Text of a token list. -/
def renderToks (toks : List TTok) : List Char :=
  (toks.map renderTok).flatten

/-- Substitute one parameter inside the token view. -/
def substOne (p : String) (v : List Char) : TTok → TTok
  | .lit l => .lit l
  | .ph q => if q = p then .lit v else .ph q

/-- Substitute every parameter that occurs in `L` inside the token view. -/
def substMany (valOf : String → List Char) (L : List String) : TTok → TTok
  | .lit l => .lit l
  | .ph q => if q ∈ L then .lit (valOf q) else .ph q

/-- Well-formedness of one token: its literal chunk or parameter name is
brace-free. -/
def wfTok : TTok → Prop
  | .lit l => braceFree l
  | .ph q => braceFree q.data

/-- Well-formedness of the token view: literal chunks and parameter names
are brace-free. -/
def wfToks (toks : List TTok) : Prop :=
  ∀ t ∈ toks, wfTok t

theorem rb_ne_lb : rbrace ≠ lbrace := by decide

theorem startsL_of_head_ne (t cs : List Char) (c : Char) (hc : c ≠ lbrace) :
    startsL (lbrace :: t) (c :: cs) = false := by
  simp [startsL, Ne.symm hc]

theorem startsL_self_append (pat cs : List Char) :
    startsL pat (pat ++ cs) = true := by
  induction pat with
  | nil => rfl
  | cons p ps ih => simp [startsL, ih]

theorem replaceLit_cons_no (pat repl : List Char) (c : Char) (cs : List Char)
    (h : startsL pat (c :: cs) = false) :
    replaceLit pat repl (c :: cs) = c :: replaceLit pat repl cs := by
  rw [replaceLit]
  simp [h]

theorem replaceLit_append_lbraceFree (pat repl : List Char) (t : List Char)
    (hpat : pat = lbrace :: t) (l : List Char) (hl : ∀ c ∈ l, c ≠ lbrace) :
    ∀ rest, replaceLit pat repl (l ++ rest) = l ++ replaceLit pat repl rest := by
  induction l with
  | nil => intro rest; rfl
  | cons c l2 ih =>
    intro rest
    have hc : c ≠ lbrace := hl c (List.mem_cons_self _ _)
    have hl2 : ∀ x ∈ l2, x ≠ lbrace := fun x hx => hl x (List.mem_cons_of_mem _ hx)
    have hs : startsL pat (c :: (l2 ++ rest)) = false := by
      rw [hpat]; exact startsL_of_head_ne _ _ _ hc
    calc replaceLit pat repl ((c :: l2) ++ rest)
        = replaceLit pat repl (c :: (l2 ++ rest)) := by simp
      _ = c :: replaceLit pat repl (l2 ++ rest) := replaceLit_cons_no _ _ _ _ hs
      _ = c :: (l2 ++ replaceLit pat repl rest) := by rw [ih hl2]
      _ = (c :: l2) ++ replaceLit pat repl rest := by simp

theorem startsL_rbrb_of_ne :
    ∀ p q rest : List Char, p ≠ q → (∀ c ∈ p, c ≠ rbrace) →
      (∀ c ∈ q, c ≠ rbrace) →
      startsL (p ++ [rbrace, rbrace]) (q ++ [rbrace, rbrace] ++ rest) = false := by
  intro p
  induction p with
  | nil =>
    intro q rest hne hp hq
    match q with
    | [] => exact absurd rfl hne
    | c :: q2 =>
      have hc : c ≠ rbrace := hq c (List.mem_cons_self _ _)
      simp [startsL, Ne.symm hc]
  | cons a p2 ih =>
    intro q rest hne hp hq
    have ha : a ≠ rbrace := hp a (List.mem_cons_self _ _)
    have hp2 : ∀ c ∈ p2, c ≠ rbrace := fun c hc => hp c (List.mem_cons_of_mem _ hc)
    match q with
    | [] => simp [startsL, ha]
    | b :: q2 =>
      have hq2 : ∀ c ∈ q2, c ≠ rbrace := fun c hc => hq c (List.mem_cons_of_mem _ hc)
      by_cases hab : a = b
      · have hne2 : p2 ≠ q2 := by
          intro hE; exact hne (by rw [hab, hE])
        have hrec := ih q2 rest hne2 hp2 hq2
        have hassoc : q2 ++ [rbrace, rbrace] ++ rest
            = q2 ++ rbrace :: rbrace :: rest := by simp
        rw [hassoc] at hrec
        simp only [List.cons_append, startsL, List.append_eq]
        simp [hrec]
      · simp [startsL, hab]

theorem startsL_placeholder_ne (p q : String) (rest : List Char)
    (hne : q ≠ p) (hp : braceFree p.data) (hq : braceFree q.data) :
    startsL (placeholderOf p) (placeholderOf q ++ rest) = false := by
  have hp2 : ∀ c ∈ p.data, c ≠ rbrace := fun c hc => (hp c hc).2
  have hq2 : ∀ c ∈ q.data, c ≠ rbrace := fun c hc => (hq c hc).2
  have hne2 : p.data ≠ q.data := by
    intro hE
    apply hne
    cases p
    cases q
    exact congrArg String.mk hE.symm
  have key := startsL_rbrb_of_ne p.data q.data rest hne2 hp2 hq2
  simp only [placeholderOf, List.cons_append, startsL, List.append_assoc] at *
  simpa using key

theorem startsL_placeholder_at_lb (p : String) (x : Char) (xs : List Char)
    (hxne : x ≠ lbrace) :
    startsL (placeholderOf p) (lbrace :: x :: xs) = false := by
  simp [placeholderOf, startsL, Ne.symm hxne]

theorem replaceLit_placeholder_skip (p q : String) (repl : List Char)
    (hne : q ≠ p) (hp : braceFree p.data) (hq : braceFree q.data) :
    ∀ rest, replaceLit (placeholderOf p) repl (placeholderOf q ++ rest)
      = placeholderOf q ++ replaceLit (placeholderOf p) repl rest := by
  intro rest
  have h0 : startsL (placeholderOf p) (placeholderOf q ++ rest) = false :=
    startsL_placeholder_ne p q rest hne hp hq
  have hsplit : placeholderOf q ++ rest
      = lbrace :: (lbrace :: (q.data ++ [rbrace, rbrace] ++ rest)) := by
    simp [placeholderOf]
  have hstep1 : replaceLit (placeholderOf p) repl (placeholderOf q ++ rest)
      = lbrace :: replaceLit (placeholderOf p) repl
          (lbrace :: (q.data ++ [rbrace, rbrace] ++ rest)) := by
    rw [hsplit]
    apply replaceLit_cons_no
    rw [← hsplit]
    exact h0
  have hstep2 : replaceLit (placeholderOf p) repl
        (lbrace :: (q.data ++ [rbrace, rbrace] ++ rest))
      = lbrace :: replaceLit (placeholderOf p) repl
          (q.data ++ [rbrace, rbrace] ++ rest) := by
    cases hQ2 : q.data with
    | nil =>
      simp only [List.nil_append]
      exact replaceLit_cons_no _ _ _ _ (startsL_placeholder_at_lb p _ _ rb_ne_lb)
    | cons y ys =>
      have hyne : y ≠ lbrace := by
        have : y ∈ q.data := by rw [hQ2]; exact List.mem_cons_self _ _
        exact (hq y this).1
      simp only [List.cons_append]
      exact replaceLit_cons_no _ _ _ _ (startsL_placeholder_at_lb p _ _ hyne)
  have hlbr : ∀ c ∈ q.data ++ [rbrace, rbrace], c ≠ lbrace := by
    intro c hc
    rcases List.mem_append.mp hc with h1 | h1
    · exact (hq c h1).1
    · have hcr : c = rbrace := by simpa using h1
      rw [hcr]
      exact rb_ne_lb
  have hstep3 : replaceLit (placeholderOf p) repl
        (q.data ++ [rbrace, rbrace] ++ rest)
      = (q.data ++ [rbrace, rbrace]) ++ replaceLit (placeholderOf p) repl rest :=
    replaceLit_append_lbraceFree _ repl _ rfl _ hlbr rest
  rw [hstep1, hstep2, hstep3]
  simp [placeholderOf]

theorem replaceLit_self_append (d : Char) (ds repl : List Char) :
    ∀ rest, replaceLit (d :: ds) repl ((d :: ds) ++ rest)
      = repl ++ replaceLit (d :: ds) repl rest := by
  intro rest
  have hcond : startsL (d :: ds) ((d :: ds) ++ rest) = true := startsL_self_append _ _
  rw [List.cons_append, replaceLit, if_pos]
  · congr 1
    have hlen : (d :: ds).length - 1 = ds.length := by simp
    rw [hlen, List.drop_left]
  · simp only [List.cons_append] at hcond
    simp [hcond]

theorem replaceLit_placeholder_hit (p : String) (repl : List Char) :
    ∀ rest, replaceLit (placeholderOf p) repl (placeholderOf p ++ rest)
      = repl ++ replaceLit (placeholderOf p) repl rest := by
  intro rest
  exact replaceLit_self_append lbrace (lbrace :: p.data ++ [rbrace, rbrace]) repl rest

theorem renderToks_cons (t : TTok) (rest : List TTok) :
    renderToks (t :: rest) = renderTok t ++ renderToks rest := by
  simp [renderToks]

theorem replaceLit_nil (pat repl : List Char) : replaceLit pat repl [] = [] := by
  simp [replaceLit]

theorem replaceLit_renderToks (p : String) (v : List Char)
    (hp : braceFree p.data) :
    ∀ toks, wfToks toks →
      replaceLit (placeholderOf p) v (renderToks toks)
        = renderToks (toks.map (substOne p v)) := by
  intro toks
  induction toks with
  | nil => intro _; simp [renderToks, replaceLit_nil]
  | cons t rest ih =>
    intro hwf
    have hwrest : wfToks rest := fun x hx => hwf x (List.mem_cons_of_mem _ hx)
    have hrec := ih hwrest
    match t with
    | .lit l =>
      have hl : braceFree l := hwf (.lit l) (List.mem_cons_self _ _)
      have hl2 : ∀ c ∈ l, c ≠ lbrace := fun c hc => (hl c hc).1
      rw [renderToks_cons, List.map_cons, renderToks_cons]
      have hstep := replaceLit_append_lbraceFree (placeholderOf p) v
        (lbrace :: p.data ++ [rbrace, rbrace]) rfl l hl2 (renderToks rest)
      rw [renderTok, hstep, hrec]
      rfl
    | .ph q =>
      have hq : braceFree q.data := hwf (.ph q) (List.mem_cons_self _ _)
      rw [renderToks_cons, List.map_cons, renderToks_cons]
      by_cases hqp : q = p
      · subst hqp
        have hstep := replaceLit_placeholder_hit q v (renderToks rest)
        rw [renderTok, hstep, hrec]
        simp [substOne, renderTok]
      · have hstep := replaceLit_placeholder_skip p q v hqp hp hq (renderToks rest)
        rw [renderTok, hstep, hrec]
        simp [substOne, hqp, renderTok]

/-- The replacement text that `substituteParam` uses for a parameter: the
bound value's text, or the empty string when the parameter is missing. -/
def valText (data : List (String × PValue)) (p : String) : List Char :=
  match lookupP data p with
  | none => []
  | some v => valueToText v

/-- A replacement text that can neither form nor destroy placeholder syntax
nor trigger `$`-substitutions. -/
def tameText (v : List Char) : Prop := braceFree v ∧ dollarFree v

instance decTameText (v : List Char) : Decidable (tameText v) :=
  inferInstanceAs (Decidable (braceFree v ∧ dollarFree v))

/-- ASCII word character (letter, digit or underscore): a character that
denotes itself inside a JavaScript regex. -/
def wordChar (c : Char) : Bool :=
  isDigitChar c || (97 ≤ c.toNat && c.toNat ≤ 122)
    || (65 ≤ c.toNat && c.toNat ≤ 90) || c = '_'

/-- A parameter name on which the constructed placeholder regex is fully
literal: nonempty and made of word characters only.  Every template
parameter of the repository (`concept_name`, `categories`, …) is of this
shape; a name with regex metacharacters would change or break the
constructed regex and is outside the embedding. -/
def wordLike (p : String) : Prop :=
  p.data ≠ [] ∧ ∀ c ∈ p.data, wordChar c = true

instance decWordLike (p : String) : Decidable (wordLike p) :=
  inferInstanceAs (Decidable (p.data ≠ [] ∧ ∀ c ∈ p.data, wordChar c = true))

theorem braceFree_of_wordLike (p : String) (h : wordLike p) :
    braceFree p.data := by
  intro c hc
  have hw := h.2 c hc
  constructor
  · intro hE
    rw [hE] at hw
    exact absurd hw (by decide)
  · intro hE
    rw [hE] at hw
    exact absurd hw (by decide)

theorem substituteParam_eq_replaceLit (data : List (String × PValue))
    (prompt : List Char) (p : String) (hd : dollarFree (valText data p)) :
    substituteParam data prompt p
      = replaceLit (placeholderOf p) (valText data p) prompt := by
  unfold substituteParam valText at *
  cases h : lookupP data p with
  | none =>
    rw [h] at hd
    exact replaceJS_eq_replaceLit _ _ _ hd
  | some v =>
    rw [h] at hd
    exact replaceJS_eq_replaceLit _ _ _ hd

theorem wfToks_map_substOne (p : String) (v : List Char) (hv : braceFree v)
    (toks : List TTok) (hwf : wfToks toks) :
    wfToks (toks.map (substOne p v)) := by
  intro t ht
  rcases List.mem_map.mp ht with ⟨t0, ht0, hEq⟩
  have h0 := hwf t0 ht0
  match t0 with
  | .lit l => rw [← hEq]; exact h0
  | .ph q =>
    rw [← hEq]
    by_cases hqp : q = p
    · simp only [substOne, if_pos hqp]
      exact hv
    · simp only [substOne, if_neg hqp]
      exact h0

theorem substMany_cons_comp (valOf : String → List Char) (p : String)
    (L : List String) (t : TTok) :
    substMany valOf L (substOne p (valOf p) t) = substMany valOf (p :: L) t := by
  match t with
  | .lit l => rfl
  | .ph q =>
    by_cases hqp : q = p
    · subst hqp
      simp [substOne, substMany]
    · have hmem : (q ∈ p :: L) = (q ∈ L) := by
        simp [List.mem_cons, hqp]
      simp only [substOne, if_neg hqp, substMany, hmem]

theorem foldl_subst_renderToks (data : List (String × PValue)) :
    ∀ (L : List String) (toks : List TTok), wfToks toks →
      (∀ p ∈ L, braceFree p.data) →
      (∀ p ∈ L, tameText (valText data p)) →
      List.foldl (substituteParam data) (renderToks toks) L
        = renderToks (toks.map (substMany (valText data) L)) := by
  intro L
  induction L with
  | nil =>
    intro toks _ _ _
    have : toks.map (substMany (valText data) []) = toks := by
      have hid : ∀ t ∈ toks, substMany (valText data) [] t = t := by
        intro t _
        match t with
        | .lit l => rfl
        | .ph q => simp [substMany]
      calc toks.map (substMany (valText data) [])
          = toks.map id := List.map_congr_left hid
        _ = toks := List.map_id toks
    rw [List.foldl_nil, this]
  | cons p L2 ih =>
    intro toks hwf hbrL htame
    have hbp : braceFree p.data := hbrL p (List.mem_cons_self _ _)
    have htp : tameText (valText data p) := htame p (List.mem_cons_self _ _)
    have hbrL2 : ∀ q ∈ L2, braceFree q.data :=
      fun q hq => hbrL q (List.mem_cons_of_mem _ hq)
    have htame2 : ∀ q ∈ L2, tameText (valText data q) :=
      fun q hq => htame q (List.mem_cons_of_mem _ hq)
    rw [List.foldl_cons]
    rw [substituteParam_eq_replaceLit data _ p htp.2]
    rw [replaceLit_renderToks p (valText data p) hbp toks hwf]
    rw [ih (toks.map (substOne p (valText data p)))
      (wfToks_map_substOne p _ htp.1 toks hwf) hbrL2 htame2]
    rw [List.map_map]
    congr 1
    apply List.map_congr_left
    intro t _
    exact substMany_cons_comp (valText data) p L2 t

theorem renderToks_braceFree (toks : List TTok)
    (h : ∀ t ∈ toks, ∃ l, t = TTok.lit l ∧ braceFree l) :
    braceFree (renderToks toks) := by
  induction toks with
  | nil => intro c hc; simp [renderToks] at hc
  | cons t rest ih =>
    rcases h t (List.mem_cons_self _ _) with ⟨l, hEq, hbf⟩
    have hrest := ih (fun x hx => h x (List.mem_cons_of_mem _ hx))
    intro c hc
    rw [renderToks_cons, hEq] at hc
    rcases List.mem_append.mp hc with h1 | h1
    · exact hbf c h1
    · exact hrest c h1

theorem hasSub_placeholder_of_braceFree (p : String) (s : List Char)
    (hs : braceFree s) : hasSub (placeholderOf p) s = false := by
  induction s with
  | nil => rfl
  | cons c cs ih =>
    have hc : c ≠ lbrace := (hs c (List.mem_cons_self _ _)).1
    have hcs : braceFree cs := fun x hx => hs x (List.mem_cons_of_mem _ hx)
    rw [hasSub]
    have h1 : startsL (placeholderOf p) (c :: cs) = false := by
      rw [show placeholderOf p
        = lbrace :: (lbrace :: p.data ++ [rbrace, rbrace]) from rfl]
      exact startsL_of_head_ne _ _ _ hc
    rw [h1, ih hcs]
    rfl

theorem lookupP_cons (k : String) (v : PValue) (data : List (String × PValue))
    (q : String) :
    lookupP ((k, v) :: data) q = if k = q then some v else lookupP data q := by
  by_cases h : k = q
  · simp [lookupP, List.find?, h]
  · simp [lookupP, List.find?, h]

theorem substituteParam_missing_pad (data : List (String × PValue)) (p : String)
    (hmiss : lookupP data p = none) (prompt : List Char) (q : String) :
    substituteParam data prompt q
      = substituteParam ((p, PValue.pstr "") :: data) prompt q := by
  by_cases hqp : p = q
  · subst hqp
    rw [substituteParam, substituteParam, hmiss, lookupP_cons, if_pos rfl]
    rfl
  · rw [substituteParam, substituteParam, lookupP_cons, if_neg hqp]

theorem foldl_subst_missing_pad (data : List (String × PValue)) (p : String)
    (hmiss : lookupP data p = none) :
    ∀ (L : List String) (prompt : List Char),
      List.foldl (substituteParam data) prompt L
        = List.foldl (substituteParam ((p, PValue.pstr "") :: data)) prompt L := by
  intro L
  induction L with
  | nil => intro prompt; rfl
  | cons q L2 ih =>
    intro prompt
    rw [List.foldl_cons, List.foldl_cons,
      substituteParam_missing_pad data p hmiss prompt q, ih]

/-- C6 (amended): for a well-formed template (its text is a brace-free
literal/placeholder token sequence over word-like declared parameter
names, i.e. names without regex metacharacters, on which the constructed
placeholder regex is literal) and a context whose substituted values
contain no brace and no `$`, rendering leaves zero occurrences of any
declared placeholder, and a parameter missing from the context behaves
exactly as if it were bound to the empty string (so rendering always
succeeds, with the placeholder replaced by the empty string). -/
theorem claim6_preparePrompt_total_render (tpl : PromptTemplate)
    (data : List (String × PValue)) (toks : List TTok)
    (htpl : tpl.template.data = renderToks toks)
    (hwf : wfToks toks)
    (hcover : ∀ q, TTok.ph q ∈ toks → q ∈ tpl.parameters)
    (hparams : ∀ p ∈ tpl.parameters, wordLike p)
    (hvals : ∀ p ∈ tpl.parameters, tameText (valText data p)) :
    (∀ p ∈ tpl.parameters,
      hasSub (placeholderOf p) (preparePrompt tpl data) = false)
    ∧ ∀ p, lookupP data p = none →
        preparePrompt tpl data
          = preparePrompt tpl ((p, PValue.pstr "") :: data) := by
  have hbr : ∀ p ∈ tpl.parameters, braceFree p.data :=
    fun p hp => braceFree_of_wordLike p (hparams p hp)
  constructor
  · intro p hp
    have hfold : preparePrompt tpl data
        = renderToks (toks.map (substMany (valText data) tpl.parameters)) := by
      rw [preparePrompt, preparePromptWith, htpl]
      exact foldl_subst_renderToks data tpl.parameters toks hwf hbr hvals
    rw [hfold]
    apply hasSub_placeholder_of_braceFree
    apply renderToks_braceFree
    intro t ht
    rcases List.mem_map.mp ht with ⟨t0, ht0, hEq⟩
    match t0 with
    | .lit l =>
      refine ⟨l, ?_, hwf (.lit l) ht0⟩
      rw [← hEq]
      rfl
    | .ph q =>
      have hq : q ∈ tpl.parameters := hcover q ht0
      refine ⟨valText data q, ?_, (hvals q hq).1⟩
      rw [← hEq]
      simp [substMany, hq]
  · intro p hmiss
    rw [preparePrompt, preparePrompt, preparePromptWith, preparePromptWith]
    exact foldl_subst_missing_pad data p hmiss tpl.parameters tpl.template.data

/-- C7 (amended): for a well-formed template over word-like declared
parameter names (no regex metacharacters, so the constructed placeholder
regex is literal) and tame substituted values, the rendered prompt does not
depend on the order in which the declared parameters are processed: any
permutation of the parameter list yields the same output. -/
theorem claim7_preparePrompt_order_independent (tpl : PromptTemplate)
    (data : List (String × PValue)) (toks : List TTok)
    (htpl : tpl.template.data = renderToks toks)
    (hwf : wfToks toks)
    (hparams : ∀ p ∈ tpl.parameters, wordLike p)
    (hvals : ∀ p ∈ tpl.parameters, tameText (valText data p))
    (L : List String) (hperm : L.Perm tpl.parameters) :
    preparePromptWith L tpl data = preparePrompt tpl data := by
  have hbrP : ∀ p ∈ tpl.parameters, braceFree p.data :=
    fun p hp => braceFree_of_wordLike p (hparams p hp)
  have hmem : ∀ q, (q ∈ L) = (q ∈ tpl.parameters) := by
    intro q
    exact propext (hperm.mem_iff)
  have hbrL : ∀ p ∈ L, braceFree p.data := by
    intro p hp
    exact hbrP p ((hmem p) ▸ hp)
  have hvalsL : ∀ p ∈ L, tameText (valText data p) := by
    intro p hp
    exact hvals p ((hmem p) ▸ hp)
  rw [preparePromptWith, preparePrompt, preparePromptWith, htpl]
  rw [foldl_subst_renderToks data L toks hwf hbrL hvalsL]
  rw [foldl_subst_renderToks data tpl.parameters toks hwf hbrP hvals]
  congr 1
  apply List.map_congr_left
  intro t _
  match t with
  | .lit l => rfl
  | .ph q => simp only [substMany, hmem q]

instance decWfTok (t : TTok) : Decidable (wfTok t) :=
  match t with
  | .lit l => inferInstanceAs (Decidable (braceFree l))
  | .ph q => inferInstanceAs (Decidable (braceFree q.data))

instance decWfToks (toks : List TTok) : Decidable (wfToks toks) :=
  inferInstanceAs (Decidable (∀ t ∈ toks, wfTok t))

theorem replaceLit_placeholder_hit_nil (p : String) (v : List Char) :
    replaceLit (placeholderOf p) v (placeholderOf p) = v := by
  have h := replaceLit_placeholder_hit p v []
  rw [List.append_nil] at h
  rw [h, replaceLit_nil, List.append_nil]

theorem replaceLit_placeholder_skip_nil (p q : String) (v : List Char)
    (hne : q ≠ p) (hp : braceFree p.data) (hq : braceFree q.data) :
    replaceLit (placeholderOf p) v (placeholderOf q) = placeholderOf q := by
  have h := replaceLit_placeholder_skip p q v hne hp hq []
  rw [List.append_nil] at h
  rw [h, replaceLit_nil, List.append_nil]

/-- Template whose single declared parameter is bound, in the context below,
to a value that itself looks like that parameter's placeholder. -/
def c6tpl : PromptTemplate :=
  { name := "t", description := "", template := "\x7b\x7ba\x7d\x7d",
    parameters := ["a"] }

/-- Context binding `a` to the text of its own placeholder. -/
def c6data : List (String × PValue) := [("a", PValue.pstr "\x7b\x7ba\x7d\x7d")]

/-- C6 counterexample: rendering `c6tpl` against `c6data` leaves an
occurrence of the declared placeholder in the output, so the claim that
rendering always produces zero remaining declared-placeholder occurrences
fails as stated. -/
theorem claim6_counterexample :
    hasSub (placeholderOf "a") (preparePrompt c6tpl c6data) = true := by
  have h1 : preparePrompt c6tpl c6data = placeholderOf "a" := by
    rw [preparePrompt, preparePromptWith,
      show c6tpl.parameters = ["a"] from rfl,
      List.foldl_cons, List.foldl_nil,
      substituteParam_eq_replaceLit c6data _ "a" (by decide),
      show valText c6data "a" = placeholderOf "a" from by decide,
      show c6tpl.template.data = placeholderOf "a" from by decide,
      replaceLit_placeholder_hit_nil]
  rw [h1]
  decide

/-- Template with two declared parameters whose first value introduces the
second parameter's placeholder. -/
def c7tpl : PromptTemplate :=
  { name := "t", description := "", template := "\x7b\x7ba\x7d\x7d",
    parameters := ["a", "b"] }

/-- Context for the order-dependence counterexample. -/
def c7data : List (String × PValue) :=
  [("a", PValue.pstr "\x7b\x7bb\x7d\x7d"), ("b", PValue.pstr "X")]

/-- C7 counterexample: substituting the declared parameters of `c7tpl` in
the order `b, a` (a permutation of the declared order `a, b`) produces a
different rendering than the declared order, so substitution order is not
irrelevant for every template and context. -/
theorem claim7_counterexample :
    List.Perm ["b", "a"] c7tpl.parameters ∧
    preparePromptWith ["b", "a"] c7tpl c7data
      ≠ preparePromptWith c7tpl.parameters c7tpl c7data := by
  constructor
  · decide
  · have hstepB : substituteParam c7data c7tpl.template.data "b"
        = placeholderOf "a" := by
      rw [substituteParam_eq_replaceLit c7data _ "b" (by decide),
        show valText c7data "b" = "X".data from by decide,
        show c7tpl.template.data = placeholderOf "a" from by decide]
      exact replaceLit_placeholder_skip_nil "b" "a" _ (by decide) (by decide)
        (by decide)
    have hstepA : substituteParam c7data (placeholderOf "a") "a"
        = placeholderOf "b" := by
      rw [substituteParam_eq_replaceLit c7data _ "a" (by decide),
        show valText c7data "a" = placeholderOf "b" from by decide,
        replaceLit_placeholder_hit_nil]
    have hL : preparePromptWith ["b", "a"] c7tpl c7data = placeholderOf "b" := by
      rw [preparePromptWith, List.foldl_cons, hstepB, List.foldl_cons,
        List.foldl_nil, hstepA]
    have hstepA2 : substituteParam c7data c7tpl.template.data "a"
        = placeholderOf "b" := by
      rw [substituteParam_eq_replaceLit c7data _ "a" (by decide),
        show valText c7data "a" = placeholderOf "b" from by decide,
        show c7tpl.template.data = placeholderOf "a" from by decide,
        replaceLit_placeholder_hit_nil]
    have hstepB2 : substituteParam c7data (placeholderOf "b") "b"
        = "X".data := by
      rw [substituteParam_eq_replaceLit c7data _ "b" (by decide),
        show valText c7data "b" = "X".data from by decide,
        replaceLit_placeholder_hit_nil]
    have hR : preparePromptWith c7tpl.parameters c7tpl c7data = "X".data := by
      rw [preparePromptWith, show c7tpl.parameters = ["a", "b"] from rfl,
        List.foldl_cons, hstepA2, List.foldl_cons, List.foldl_nil, hstepB2]
    rw [hL, hR]
    decide

/-- Well-formed example template for the C6 witness. -/
def tpl6w : PromptTemplate :=
  { name := "w", description := "", template := "Hello \x7b\x7bname\x7d\x7d",
    parameters := ["name"] }

/-- Token view of `tpl6w`. -/
def toks6w : List TTok := [TTok.lit "Hello ".data, TTok.ph "name"]

/-- Context for the C6 witness. -/
def data6w : List (String × PValue) := [("name", PValue.pstr "World")]

/-- Witness for C6 at a concrete template and context. -/
theorem claim6_witness :
    (∀ p ∈ tpl6w.parameters,
      hasSub (placeholderOf p) (preparePrompt tpl6w data6w) = false)
    ∧ ∀ p, lookupP data6w p = none →
        preparePrompt tpl6w data6w
          = preparePrompt tpl6w ((p, PValue.pstr "") :: data6w) :=
  claim6_preparePrompt_total_render tpl6w data6w toks6w (by decide) (by decide)
    (by
      intro q hq
      rcases List.mem_cons.mp hq with h | h
      · exact absurd h (by intro hE; exact TTok.noConfusion hE)
      · rcases List.mem_cons.mp h with h2 | h2
        · injection h2 with h3
          rw [h3]
          exact List.mem_cons_self _ _
        · exact absurd h2 (by intro hE; exact (List.not_mem_nil _) hE))
    (by decide) (by decide)

/-- Well-formed example template for the C7 witness. -/
def tpl7w : PromptTemplate :=
  { name := "w", description := "",
    template := "\x7b\x7ba\x7d\x7d-\x7b\x7bb\x7d\x7d",
    parameters := ["a", "b"] }

/-- Token view of `tpl7w`. -/
def toks7w : List TTok := [TTok.ph "a", TTok.lit "-".data, TTok.ph "b"]

/-- Context for the C7 witness. -/
def data7w : List (String × PValue) :=
  [("a", PValue.pstr "1"), ("b", PValue.pstr "2")]

/-- Witness for C7 at a concrete template, context and permutation. -/
theorem claim7_witness :
    preparePromptWith ["b", "a"] tpl7w data7w = preparePrompt tpl7w data7w :=
  claim7_preparePrompt_order_independent tpl7w data7w toks7w (by decide)
    (by decide) (by decide) (by decide) ["b", "a"] (by decide)

/-- Cached gateway result: the `{ response, tokensUsed }` object that
`sendRequest` builds, caches and returns (claude-service.ts lines 163-166).
The JSON round trip through the cache backend is modelled as the identity. -/
structure CacheVal where
  response : String
  tokensUsed : Nat
deriving DecidableEq

/-- One append-only interaction record, with the fields passed to
`dbService.logClaudeInteraction` (claude-service.ts lines 99-107).
Wall-clock duration is not modelled and recorded as `0`. -/
structure InteractionRecord where
  user_id : String
  concept_id : Option String
  interaction_type : String
  prompt : String
  response : String
  tokens_used : Nat
  duration_ms : Nat
deriving DecidableEq

/-- Gateway-visible mutable state: the prompt-response cache (keyed by the
`claude:`-prefixed prompt hash), the interaction log, and a counter of
outbound calls to the external model. -/
structure GatewayState where
  cache : List (String × CacheVal)
  log : List InteractionRecord
  apiCalls : Nat
deriving DecidableEq

instance decEqExceptUC : DecidableEq (Except Unit CacheVal)
  | .error (), .error () => isTrue rfl
  | .ok x, .ok y =>
    if h : x = y then isTrue (congrArg Except.ok h)
    else isFalse (fun hE => h (Except.ok.inj hE))
  | .error (), .ok _ => isFalse (fun hE => Except.noConfusion hE)
  | .ok _, .error () => isFalse (fun hE => Except.noConfusion hE)

/-- Cache lookup (redis `get`, newest entry wins). -/
def lookupCache (cache : List (String × CacheVal)) (k : String) :
    Option CacheVal :=
  match cache.find? (fun kv => kv.1 = k) with
  | some kv => some kv.2
  | none => none

/-- The external generative model: from the prompt, `max_tokens`,
`temperature` and optional system prompt to `none` (transport or non-2xx
failure) or `(content, input_tokens, output_tokens)`. -/
def ApiFn : Type :=
  String → Nat → ℚ → Option String → Option (String × Nat × Nat)

/-- `generatePromptHash` (claude-service.ts lines 82-84): the digest of the
prompt text alone.  The sha256 digest itself is an opaque deterministic
function, taken as a parameter. -/
def generatePromptHash (hash : String → String) (prompt : String) : String :=
  hash prompt

/-- The cache key `sendRequest`/`checkCache` use for a request with the
given prompt, `maxTokens` and `temperature`: `claude:` followed by the
prompt hash (claude-service.ts lines 55, 127).  Exactly as in the source,
the key does not depend on `maxTokens` or `temperature`. -/
def cacheKeyOf (hash : String → String) (prompt : String) (maxTokens : Nat)
    (temperature : ℚ) : String :=
  "claude:" ++ generatePromptHash hash prompt

/-- The cache-miss path of `sendRequest` (claude-service.ts lines 137-190):
one call to the external model; on failure the wrapped error propagates and
nothing is cached or logged; on success the result is cached (when caching
is on) and one interaction record is appended. -/
def sendRequestMiss (api : ApiFn) (st : GatewayState) (userId : String)
    (conceptId : Option String) (interactionType : String) (prompt : String)
    (maxTokens : Nat) (temperature : ℚ) (useCaching : Bool)
    (systemPrompt : Option String) (key : String) :
    Except Unit CacheVal × GatewayState :=
  match api prompt maxTokens temperature systemPrompt with
  | none => (Except.error (), { st with apiCalls := st.apiCalls + 1 })
  | some (content, inTok, outTok) =>
    let result : CacheVal := { response := content, tokensUsed := inTok + outTok }
    let st1 := { st with apiCalls := st.apiCalls + 1 }
    let st2 :=
      if useCaching then { st1 with cache := (key, result) :: st1.cache } else st1
    let st3 := { st2 with log := st2.log ++
      [{ user_id := userId, concept_id := conceptId,
         interaction_type := interactionType, prompt := prompt,
         response := content, tokens_used := result.tokensUsed,
         duration_ms := 0 }] }
    (Except.ok result, st3)

/-- `sendRequest` (claude-service.ts lines 117-191): with caching on, a
cache hit returns the cached `{ response, tokensUsed }` immediately —
before the model call, the cache write and the interaction logging. -/
def sendRequest (hash : String → String) (api : ApiFn) (st : GatewayState)
    (userId : String) (conceptId : Option String) (interactionType : String)
    (prompt : String) (maxTokens : Nat) (temperature : ℚ) (useCaching : Bool)
    (systemPrompt : Option String) : Except Unit CacheVal × GatewayState :=
  let key := "claude:" ++ generatePromptHash hash prompt
  if useCaching then
    match lookupCache st.cache key with
    | some r => (Except.ok r, st)
    | none => sendRequestMiss api st userId conceptId interactionType prompt
        maxTokens temperature useCaching systemPrompt key
  else
    sendRequestMiss api st userId conceptId interactionType prompt
      maxTokens temperature useCaching systemPrompt key

theorem sendRequest_hit (hash : String → String) (api : ApiFn)
    (st : GatewayState) (userId : String) (conceptId : Option String)
    (interactionType : String) (prompt : String) (maxTokens : Nat)
    (temperature : ℚ) (systemPrompt : Option String) (r : CacheVal)
    (hcache : lookupCache st.cache ("claude:" ++ generatePromptHash hash prompt)
      = some r) :
    sendRequest hash api st userId conceptId interactionType prompt maxTokens
      temperature true systemPrompt = (Except.ok r, st) := by
  unfold sendRequest
  simp [hcache]

theorem sendRequest_ok_cached (hash : String → String) (api : ApiFn)
    (st0 st1 : GatewayState) (userId : String) (conceptId : Option String)
    (interactionType : String) (prompt : String) (maxTokens : Nat)
    (temperature : ℚ) (systemPrompt : Option String) (r1 : CacheVal)
    (h : sendRequest hash api st0 userId conceptId interactionType prompt
      maxTokens temperature true systemPrompt = (Except.ok r1, st1)) :
    lookupCache st1.cache ("claude:" ++ generatePromptHash hash prompt)
      = some r1 := by
  unfold sendRequest at h
  simp only [if_pos] at h
  cases hc : lookupCache st0.cache ("claude:" ++ generatePromptHash hash prompt) with
  | some r =>
    rw [hc] at h
    injection h with h1 h2
    injection h1 with h3
    rw [← h2, ← h3]
    exact hc
  | none =>
    rw [hc] at h
    unfold sendRequestMiss at h
    cases hapi : api prompt maxTokens temperature systemPrompt with
    | none =>
      rw [hapi] at h
      injection h with h1 _
      exact absurd h1 (by intro hE; exact Except.noConfusion hE)
    | some triple =>
      rw [hapi] at h
      obtain ⟨content, inTok, outTok⟩ := triple
      simp only [if_pos] at h
      injection h with h1 h2
      injection h1 with h3
      rw [← h2]
      simp [lookupCache, List.find?]
      rw [← h3]

/-- C3 (corrected): the gateway's cache key is a digest of the prompt text
alone — `maxTokens` and `temperature` are not part of it.  Consequently two
requests with identical `promptText` always share the cache key, whatever
their `maxTokens`/`temperature`, and once the first call has succeeded with
caching on, a second call with the same prompt but different `maxTokens` and
`temperature` is served the first call's cached entry unchanged. -/
theorem claim3_cache_key_prompt_only (hash : String → String) (api : ApiFn)
    (st0 st1 : GatewayState) (userId userId2 : String)
    (conceptId conceptId2 : Option String)
    (interactionType interactionType2 : String) (prompt : String)
    (m1 m2 : Nat) (t1 t2 : ℚ) (systemPrompt systemPrompt2 : Option String)
    (r1 : CacheVal)
    (h : sendRequest hash api st0 userId conceptId interactionType prompt
      m1 t1 true systemPrompt = (Except.ok r1, st1)) :
    cacheKeyOf hash prompt m1 t1 = cacheKeyOf hash prompt m2 t2
    ∧ sendRequest hash api st1 userId2 conceptId2 interactionType2 prompt
        m2 t2 true systemPrompt2 = (Except.ok r1, st1) := by
  constructor
  · rfl
  · exact sendRequest_hit hash api st1 userId2 conceptId2 interactionType2
      prompt m2 t2 systemPrompt2 r1
      (sendRequest_ok_cached hash api st0 st1 userId conceptId interactionType
        prompt m1 t1 systemPrompt r1 h)

/-- The external model used by the gateway examples: succeeds and reports
`maxTokens` input tokens, so calls with different `maxTokens` would return
different token counts if they actually reached the model. -/
def apiEcho : ApiFn := fun _ maxTokens _ _ => some ("resp", maxTokens, 0)

/-- Empty initial gateway state. -/
def gwSt0 : GatewayState := { cache := [], log := [], apiCalls := 0 }

/-- The cached result of the first example call. -/
def gwR1 : CacheVal := { response := "resp", tokensUsed := 100 }

/-- Gateway state after the first example call. -/
def gwSt1 : GatewayState :=
  { cache := [("claude:p", gwR1)],
    log := [{ user_id := "u", concept_id := none, interaction_type := "t",
              prompt := "p", response := "resp", tokens_used := 100,
              duration_ms := 0 }],
    apiCalls := 1 }

/-- C3 counterexample: two requests with identical prompt text but different
`maxTokens` (100 vs 200) and `temperature` (0 vs 1) share the cache key,
and the second is served the first's cached entry (same `tokensUsed`, no
state change), contradicting the claim that their keys differ and that
neither can be served the other's cached entry. -/
theorem claim3_counterexample :
    (100 : Nat) ≠ 200
    ∧ cacheKeyOf (fun s => s) "p" 100 0 = cacheKeyOf (fun s => s) "p" 200 1
    ∧ sendRequest (fun s => s) apiEcho gwSt0 "u" none "t" "p" 100 0 true none
        = (Except.ok gwR1, gwSt1)
    ∧ sendRequest (fun s => s) apiEcho gwSt1 "u" none "t" "p" 200 1 true none
        = (Except.ok gwR1, gwSt1) := by
  refine ⟨by decide, rfl, by decide, by decide⟩

/-- Witness for C3 at a concrete digest, model, state and request. -/
theorem claim3_witness :
    cacheKeyOf (fun s => s) "p" 100 0 = cacheKeyOf (fun s => s) "p" 200 1
    ∧ sendRequest (fun s => s) apiEcho gwSt1 "u2" (some "c") "t2" "p" 200 1
        true none = (Except.ok gwR1, gwSt1) :=
  claim3_cache_key_prompt_only (fun s => s) apiEcho gwSt0 gwSt1 "u" "u2"
    none (some "c") "t" "t2" "p" 100 200 0 1 none none gwR1 (by decide)

/-- C4 (confirmed): with caching enabled, once a call has succeeded and the
cache holds its entry, a second call with identical
`(promptText, maxTokens, temperature)` returns the same `tokensUsed`,
leaves the whole gateway state unchanged — so it issues no call to the
external model and appends no second `InteractionRecord`: a cache hit skips
interaction logging entirely (the hit path returns before the logging
statement). -/
theorem claim4_cache_hit_invisible (hash : String → String) (api : ApiFn)
    (st0 st1 : GatewayState) (userId userId2 : String)
    (conceptId conceptId2 : Option String)
    (interactionType interactionType2 : String) (prompt : String)
    (maxTokens : Nat) (temperature : ℚ)
    (systemPrompt systemPrompt2 : Option String) (r1 : CacheVal)
    (h : sendRequest hash api st0 userId conceptId interactionType prompt
      maxTokens temperature true systemPrompt = (Except.ok r1, st1)) :
    (sendRequest hash api st1 userId2 conceptId2 interactionType2 prompt
        maxTokens temperature true systemPrompt2).1 = Except.ok r1
    ∧ (sendRequest hash api st1 userId2 conceptId2 interactionType2 prompt
        maxTokens temperature true systemPrompt2).2.log = st1.log
    ∧ (sendRequest hash api st1 userId2 conceptId2 interactionType2 prompt
        maxTokens temperature true systemPrompt2).2.apiCalls
      = st1.apiCalls := by
  have hfull := sendRequest_hit hash api st1 userId2 conceptId2
    interactionType2 prompt maxTokens temperature systemPrompt2 r1
    (sendRequest_ok_cached hash api st0 st1 userId conceptId interactionType
      prompt maxTokens temperature systemPrompt r1 h)
  rw [hfull]
  exact ⟨rfl, rfl, rfl⟩

/-- Witness for C4 at a concrete digest, model, state and request. -/
theorem claim4_witness :
    (sendRequest (fun s => s) apiEcho gwSt1 "u2" none "t2" "p" 100 0
        true none).1 = Except.ok gwR1
    ∧ (sendRequest (fun s => s) apiEcho gwSt1 "u2" none "t2" "p" 100 0
        true none).2.log = gwSt1.log
    ∧ (sendRequest (fun s => s) apiEcho gwSt1 "u2" none "t2" "p" 100 0
        true none).2.apiCalls = gwSt1.apiCalls :=
  claim4_cache_hit_invisible (fun s => s) apiEcho gwSt0 gwSt1 "u" "u2"
    none none "t" "t2" "p" 100 0 none none gwR1 (by decide)

/-- Result of reading and parsing one template's backing file:
`missing` models a `readFile` rejection (absent file), `malformed` a
`JSON.parse` throw, `good` a successfully parsed template. -/
inductive FileResult where
  | missing : FileResult
  | malformed : FileResult
  | good (t : PromptTemplate) : FileResult
deriving DecidableEq

/-- A backing-file read that throws when loaded. -/
def FileResult.isBad : FileResult → Prop
  | .missing => True
  | .malformed => True
  | .good _ => False

instance decIsBad (fr : FileResult) : Decidable fr.isBad :=
  match fr with
  | .missing => isTrue trivial
  | .malformed => isTrue trivial
  | .good _ => isFalse (fun h => h)

/-- The sequential template-loading loop of `loadTemplates`
(prompt-template-service.ts lines 60-66): the whole loop body sits inside
`loadTemplates`'s single try/catch, so the first `readFile`/`JSON.parse`
throw aborts the entire load with `Failed to load prompt templates`. -/
def loadTemplatesFrom :
    List (String × FileResult) → Except Unit (List (String × PromptTemplate))
  | [] => Except.ok []
  | (name, fr) :: rest =>
    match fr with
    | .good t =>
      match loadTemplatesFrom rest with
      | .ok m => .ok ((name, t) :: m)
      | .error e => .error e
    | .missing => .error ()
    | .malformed => .error ()

/-- `loadTemplates` (prompt-template-service.ts lines 25-78) on first use:
if the shared redis cache holds the template set it is used as-is;
otherwise every backing file is read and parsed in sequence, and any
failure aborts the whole load. -/
def loadTemplates (cached : Option (List (String × PromptTemplate)))
    (backing : List (String × FileResult)) :
    Except Unit (List (String × PromptTemplate)) :=
  match cached with
  | some ts => Except.ok ts
  | none => loadTemplatesFrom backing

/-- `getTemplate` (prompt-template-service.ts lines 83-95): trigger the
lazy load, then look the name up; a failed load propagates as a thrown
error, an absent name yields `null` after a warning. -/
def getTemplate (cached : Option (List (String × PromptTemplate)))
    (backing : List (String × FileResult)) (name : String) :
    Except Unit (Option PromptTemplate) :=
  match loadTemplates cached backing with
  | .error e => .error e
  | .ok ts =>
    .ok (match ts.find? (fun kv => kv.1 = name) with
         | some kv => some kv.2
         | none => none)

/-- A healthy example template. -/
def tplGV : PromptTemplate :=
  { name := "graph_validation", description := "", template := "v",
    parameters := [] }

/-- Backing store in which only the second template's file is missing. -/
def backing8 : List (String × FileResult) :=
  [("graph_validation", FileResult.good tplGV),
   ("category_enrichment", FileResult.missing)]

/-- C8 counterexample: with only `category_enrichment`'s file missing, even
the perfectly healthy `graph_validation` template fails to load —
`getTemplate` propagates the load failure instead of returning the
template, contradicting the claim that a missing backing file is fatal for
that template only. -/
theorem claim8_counterexample :
    getTemplate none backing8 "graph_validation" = Except.error () := rfl

/-- C8 (corrected): a missing or malformed backing file for any template
aborts the entire initial load: `getTemplate` then fails for every
requested name (no template remains retrievable), because the per-file
loop runs inside a single try/catch. -/
theorem claim8_load_all_or_nothing (backing : List (String × FileResult))
    (name : String) (h : ∃ kv ∈ backing, kv.2.isBad) :
    getTemplate none backing name = Except.error () := by
  have hload : loadTemplatesFrom backing = Except.error () := by
    induction backing with
    | nil =>
      rcases h with ⟨kv, hmem, _⟩
      exact absurd hmem (List.not_mem_nil kv)
    | cons entry rest ih =>
      obtain ⟨ename, efr⟩ := entry
      rcases h with ⟨kv, hmem, hbad⟩
      rcases List.mem_cons.mp hmem with hEq | hmem2
      · rw [hEq] at hbad
        match efr, hbad with
        | .missing, _ => rfl
        | .malformed, _ => rfl
      · have hrest := ih ⟨kv, hmem2, hbad⟩
        match efr with
        | .missing => rfl
        | .malformed => rfl
        | .good t =>
          rw [loadTemplatesFrom, hrest]
  rw [getTemplate, loadTemplates, hload]

/-- Witness for C8: at the concrete two-entry backing store, the load
failure makes every lookup fail. -/
theorem claim8_witness :
    getTemplate none backing8 "graph_validation" = Except.error ()
    ∧ getTemplate none backing8 "category_enrichment" = Except.error () := by
  constructor
  · exact claim8_load_all_or_nothing backing8 "graph_validation"
      ⟨("category_enrichment", FileResult.missing), by decide, trivial⟩
  · exact claim8_load_all_or_nothing backing8 "category_enrichment"
      ⟨("category_enrichment", FileResult.missing), by decide, trivial⟩

theorem toNat_ofNat_valid (n : Nat) (h : n < 55296) : (Char.ofNat n).toNat = n := by
  unfold Char.ofNat
  rw [dif_pos (Or.inl h)]
  unfold Char.ofNatAux Char.toNat
  simp [UInt32.toNat, Nat.mod_eq_of_lt (show n < 4294967296 by omega)]

theorem lowerChar_ne_hash (c : Char) (h : c ≠ '#') : lowerChar c ≠ '#' := by
  unfold lowerChar
  split_ifs with h1 h2 h3 <;> intro hE
  · simp only [Bool.and_eq_true, decide_eq_true_eq] at h1
    have h2 := congrArg Char.toNat hE
    rw [toNat_ofNat_valid _ (by omega)] at h2
    have h35 : Char.toNat '#' = 35 := rfl
    omega
  · simp only [Bool.and_eq_true, decide_eq_true_eq] at h2
    have h4 := congrArg Char.toNat hE
    rw [toNat_ofNat_valid _ (by omega)] at h4
    have h35 : Char.toNat '#' = 35 := rfl
    omega
  · have h4 := congrArg Char.toNat hE
    rw [toNat_ofNat_valid _ (by omega)] at h4
    have h35 : Char.toNat '#' = 35 := rfl
    omega
  · exact h hE

theorem startsL_head_ne (a : Char) (t : List Char) (c : Char) (cs : List Char)
    (h : a ≠ c) : startsL (a :: t) (c :: cs) = false := by
  simp [startsL, h]

theorem ciStarts_hash_head_false (t : List Char) (c : Char) (cs : List Char)
    (h : c ≠ '#') : ciStarts ('#' :: t) (c :: cs) = false := by
  have hl : lowerChar '#' = '#' := rfl
  have hc := lowerChar_ne_hash c h
  simp [ciStarts, hl]
  intro hE
  exact absurd hE.symm hc

/-- Match of the separator regex `\d+\.\s+` at the head of the input:
greedy digits, a literal dot, greedy whitespace; returns the rest. -/
def numMarkerStarts (cs : List Char) : Option (List Char) :=
  let ds := cs.takeWhile isDigitChar
  if ds.isEmpty then none
  else
    match cs.drop ds.length with
    | '.' :: cs2 =>
      let ws := cs2.takeWhile isWSChar
      if ws.isEmpty then none else some (cs2.drop ws.length)
    | _ => none

/-- `String.prototype.split(/\d+\.\s+/)`: scan left to right, cutting the
input at each leftmost separator match.  The fuel argument bounds the scan
by the input length (each step consumes at least one character). -/
def splitNumAux : Nat → List Char → List Char → List (List Char)
  | _, acc, [] => [acc.reverse]
  | 0, acc, cs => [acc.reverse ++ cs]
  | fuel + 1, acc, c :: cs =>
    match numMarkerStarts (c :: cs) with
    | some rest => acc.reverse :: splitNumAux fuel [] rest
    | none => splitNumAux fuel (c :: acc) cs

/-- The section split of `validateGraph` (claude-service.ts line 286). -/
def splitNumbered (cs : List Char) : List (List Char) :=
  splitNumAux cs.length [] cs

/-- Match of the bullet separator regex `\n-\s+` at the head of the input. -/
def dashMarkerStarts (cs : List Char) : Option (List Char) :=
  match cs with
  | '\n' :: '-' :: cs2 =>
    let ws := cs2.takeWhile isWSChar
    if ws.isEmpty then none else some (cs2.drop ws.length)
  | _ => none

/-- `String.prototype.split(/\n-\s+/)`, used for every bullet list. -/
def splitDashAux : Nat → List Char → List Char → List (List Char)
  | _, acc, [] => [acc.reverse]
  | 0, acc, cs => [acc.reverse ++ cs]
  | fuel + 1, acc, c :: cs =>
    match dashMarkerStarts (c :: cs) with
    | some rest => acc.reverse :: splitDashAux fuel [] rest
    | none => splitDashAux fuel (c :: acc) cs

/-- Split a text on `\n-\s+` bullet separators. -/
def splitDashList (cs : List Char) : List (List Char) :=
  splitDashAux cs.length [] cs

/-- Issue severity (type-definitions.ts line 172). -/
inductive Severity where
  | low : Severity
  | medium : Severity
  | high : Severity
deriving DecidableEq

/-- Suggestion kind (type-definitions.ts lines 175-181). -/
inductive SuggestionType where
  | add_category : SuggestionType
  | add_connection : SuggestionType
  | modify_category : SuggestionType
  | modify_connection : SuggestionType
deriving DecidableEq

/-- `determineSeverity` (claude-service.ts lines 354-367): case-insensitive
keyword match, high keywords checked first, defaulting to medium. -/
def determineSeverity (text : List Char) : Severity :=
  let textLower := lowerList text
  if ["critical", "severe", "major", "критический", "серьезный"].any
      (fun w => hasSub w.data textLower) then
    Severity.high
  else if ["minor", "slight", "незначительный", "небольшой"].any
      (fun w => hasSub w.data textLower) then
    Severity.low
  else
    Severity.medium

/-- `determineSuggestionType` (claude-service.ts lines 339-349): dual-language
keyword match on the lowercased text, defaulting to `modify_connection`. -/
def determineSuggestionType (text : List Char) : SuggestionType :=
  let textLower := lowerList text
  if hasSub "добавить категорию".data textLower
      || hasSub "add category".data textLower then
    SuggestionType.add_category
  else if hasSub "добавить связь".data textLower
      || hasSub "add connection".data textLower then
    SuggestionType.add_connection
  else if hasSub "изменить категорию".data textLower
      || hasSub "modify category".data textLower then
    SuggestionType.modify_category
  else
    SuggestionType.modify_connection

/-- One validation issue (type-definitions.ts lines 165-173; the optional
`affected_elements` field is never produced by the parser and is omitted). -/
structure ValidationIssue where
  issue_type : String
  description : String
  severity : Severity
deriving DecidableEq

/-- One improvement suggestion (type-definitions.ts lines 175-181). -/
structure ValidationSuggestion where
  suggestion_type : SuggestionType
  description : String
deriving DecidableEq

/-- Validation result (type-definitions.ts lines 158-163). -/
structure ValidationResult where
  general_analysis : String
  contradictions : List ValidationIssue
  missing_elements : List ValidationIssue
  improvement_suggestions : List ValidationSuggestion
deriving DecidableEq

/-- The per-bullet issue extraction of `validateGraph` (claude-service.ts
lines 292-313): trim the section, split on bullets, drop the part before
the first bullet, one issue per bullet. -/
def parseIssueBullets (kind : String) (sectionText : List Char) :
    List ValidationIssue :=
  ((splitDashList (trimL sectionText)).drop 1).map (fun text =>
    { issue_type := kind, description := String.mk (trimL text),
      severity := determineSeverity text })

/-- The suggestion extraction of `validateGraph` (lines 316-324). -/
def parseSuggestionBullets (sectionText : List Char) :
    List ValidationSuggestion :=
  ((splitDashList (trimL sectionText)).drop 1).map (fun text =>
    { suggestion_type := determineSuggestionType text,
      description := String.mk (trimL text) })

/-- The response-parsing block of `validateGraph` (claude-service.ts lines
278-327).  `Except.error ()` models the `TypeError` thrown by
`sections[4].trim()` when `sections[4]` is `undefined`, which the enclosing
catch rethrows as `Failed to validate graph` — the split produces exactly
four parts whenever the response carries exactly three numbered markers,
the guard `sections.length >= 4` passes, and index 4 is out of range. -/
def validateGraphExtract (response : String) : Except Unit ValidationResult :=
  let sections := splitNumbered response.data
  if sections.length ≥ 4 then
    match sections.get? 4 with
    | none => Except.error ()
    | some s4 =>
      Except.ok
        { general_analysis := String.mk (trimL (sections.getD 1 [])),
          contradictions := parseIssueBullets "contradiction" (sections.getD 2 []),
          missing_elements :=
            parseIssueBullets "missing_element" (sections.getD 3 []),
          improvement_suggestions := parseSuggestionBullets s4 }
  else
    Except.ok
      { general_analysis := response, contradictions := [],
        missing_elements := [], improvement_suggestions := [] }

/-- C2 / parser-crash witness input: a response with exactly three top-level
numbered sections. -/
def threeSectionResponse : String := "1. A\n2. B\n3. C"

/-- C2 (code bug): on a response with exactly three numbered sections the
split yields four parts, the `>= 4` guard passes, and `sections[4].trim()`
throws — `validateGraph` fails instead of falling back to placing the whole
response into `general_analysis` as the spec requires. -/
theorem claim2_three_sections_throws :
    splitNumbered threeSectionResponse.data
      = ["".data, "A\n".data, "B\n".data, "C".data]
    ∧ validateGraphExtract threeSectionResponse = Except.error () := by
  constructor
  · rfl
  · rfl

/-- The prefix of the input before its first occurrence of `##`; models the
lazy capture `([\s\S]*?)` bounded by the lookahead `(?=##|$)` that every
`## `-heading regex of the source uses. -/
def untilHashes : List Char → List Char
  | [] => []
  | c :: cs => if startsL ['#', '#'] (c :: cs) then [] else c :: untilHashes cs

/-- Scan for `heading` case-insensitively; at the first occurrence followed
by at least one whitespace character (`\s+`), capture up to the next `##`
or the end; an occurrence without following whitespace is skipped exactly
as the regex engine moves past it. -/
def sectionCIAux (heading : List Char) : Nat → List Char → Option (List Char)
  | _, [] => none
  | 0, _ => none
  | fuel + 1, c :: cs =>
    if ciStarts heading (c :: cs) then
      let after := (c :: cs).drop heading.length
      let ws := after.takeWhile isWSChar
      if ws.isEmpty then sectionCIAux heading fuel cs
      else some (untilHashes (after.drop ws.length))
    else sectionCIAux heading fuel cs

/-- `response.match(/## Heading\s+([\s\S]*?)(?=##|$)/i)`, returning the
capture group. -/
def sectionCI (resp : List Char) (heading : String) : Option (List Char) :=
  sectionCIAux heading.data resp.length resp

/-- Like `sectionCI` but with no `\s+` after the heading, as in the
`## Потенциальные проблемы([\s\S]*?)(?=##|$)` pattern. -/
def sectionCI0Aux (heading : List Char) : Nat → List Char → Option (List Char)
  | _, [] => none
  | 0, _ => none
  | fuel + 1, c :: cs =>
    if ciStarts heading (c :: cs) then
      some (untilHashes ((c :: cs).drop heading.length))
    else sectionCI0Aux heading fuel cs

/-- `response.match(/## Heading([\s\S]*?)(?=##|$)/i)`. -/
def sectionCI0 (resp : List Char) (heading : String) : Option (List Char) :=
  sectionCI0Aux heading.data resp.length resp

/-- Bullet list items: `capture.split(/\n-\s+/).slice(1).map(t => t.trim())
.filter(t => t.length > 0)`, shared by the enrichment and critical-analysis
parsers. -/
def bulletItems (sectionText : List Char) : List String :=
  ((((splitDashList sectionText).drop 1).map (fun t => String.mk (trimL t))).filter
    (fun t => t.length > 0))

/-- Enrichment result (type-definitions.ts lines 184-189; the three list
fields are optional in TS and initialized to `[]` by both enrichment
operations, so they are plain lists here). -/
structure EnrichmentResult where
  extended_description : String
  alternative_interpretations : List String
  historical_analogs : List String
  related_concepts : List String
deriving DecidableEq

/-- The response-parsing block of `enrichCategory` (claude-service.ts lines
388-430): the extended description falls back to the whole response when
its heading is absent; each list section is parsed when present. -/
def enrichCategoryExtract (response : String) : EnrichmentResult :=
  let r := response.data
  { extended_description :=
      match sectionCI r "## Расширенное описание" with
      | some cap => String.mk (trimL cap)
      | none => response,
    alternative_interpretations :=
      match sectionCI r "## Альтернативные трактовки" with
      | some cap => bulletItems cap
      | none => [],
    historical_analogs :=
      match sectionCI r "## Исторические аналоги" with
      | some cap => bulletItems cap
      | none => [],
    related_concepts :=
      match sectionCI r "## Связанные концепты" with
      | some cap => bulletItems cap
      | none => [] }

/-- The response-parsing block of `enrichConnection` (claude-service.ts
lines 459-492): same shape with connection-specific headings; the
`related_concepts` list is never filled by this operation. -/
def enrichConnectionExtract (response : String) : EnrichmentResult :=
  let r := response.data
  { extended_description :=
      match sectionCI r "## Философское обоснование" with
      | some cap => String.mk (trimL cap)
      | none => response,
    alternative_interpretations :=
      match sectionCI r "## Возможные контраргументы" with
      | some cap => bulletItems cap
      | none => [],
    historical_analogs :=
      match sectionCI r "## Аналогичные связи" with
      | some cap => bulletItems cap
      | none => [],
    related_concepts := [] }

/-- Result of `developThesis` (claude-service.ts lines 613-641). -/
structure ThesisDevelopment where
  text : String
  justification : String
  counterarguments : String
  historical_analogs : String
  practical_implications : String
deriving DecidableEq

/-- The response-parsing block of `developThesis` (claude-service.ts lines
613-641): four optional sections, each defaulting to the empty string; the
`text` field carries the input thesis text, not the response. -/
def developThesisExtract (thesisText : String) (response : String) :
    ThesisDevelopment :=
  let r := response.data
  let sec := fun (h : String) =>
    match sectionCI r h with
    | some cap => String.mk (trimL cap)
    | none => ""
  { text := thesisText,
    justification := sec "## Философское обоснование",
    counterarguments := sec "## Возможные контраргументы",
    historical_analogs := sec "## Исторические аналоги",
    practical_implications := sec "## Практические следствия" }

/-- First success over a candidate list; drives lazy/greedy backtracking. -/
def firstSome {α β : Type} (xs : List α) (f : α → Option β) : Option β :=
  xs.findSome? f

/-- Lazy capture `(.+?)` with dotAll: try capture lengths from 1 upward,
handing capture and rest to the continuation; first success wins. -/
def lazyCap {β : Type} (cs : List Char) (k : List Char → List Char → Option β) :
    Option β :=
  firstSome (List.range cs.length) (fun i => k (cs.take (i + 1)) (cs.drop (i + 1)))

/-- Greedy `\s+`: require at least one whitespace character, consume as many
as possible, backtracking one at a time when the continuation fails. -/
def greedyWS {β : Type} (cs : List Char) (k : List Char → Option β) : Option β :=
  let m := (cs.takeWhile isWSChar).length
  firstSome (List.range m) (fun j => k (cs.drop (m - j)))

/-- Prefix of the input before its first occurrence of `stop` (the whole
input when `stop` never occurs): the lazy `([\s\S]*?)(?=stop|$)` capture. -/
def untilStop (stop : List Char) : List Char → List Char
  | [] => []
  | c :: cs => if startsL stop (c :: cs) then [] else c :: untilStop stop cs

/-- Case-insensitive version of `untilStop`, for lookaheads inside `/i`
regexes. -/
def untilStopCI (stop : List Char) : List Char → List Char
  | [] => []
  | c :: cs => if ciStarts stop (c :: cs) then [] else c :: untilStopCI stop cs

/-- `String.prototype.split(sep)` with a literal string separator. -/
def splitLitAux (sep : List Char) : Nat → List Char → List Char → List (List Char)
  | _, acc, [] => [acc.reverse]
  | 0, acc, cs => [acc.reverse ++ cs]
  | fuel + 1, acc, c :: cs =>
    if startsL sep (c :: cs) && sep.length ≠ 0 then
      acc.reverse :: splitLitAux sep fuel [] ((c :: cs).drop sep.length)
    else splitLitAux sep fuel (c :: acc) cs

/-- `String.prototype.split` on a literal separator. -/
def splitLit (sep cs : List Char) : List (List Char) :=
  splitLitAux sep cs.length [] cs

/-- The sub-heading name capture `(.+?)\s+` (no dotAll): the shortest
nonempty newline-free prefix followed by a whitespace character. -/
def elemNameSplit (after : List Char) : Option (List Char × List Char) :=
  firstSome (List.range after.length) (fun i =>
    let nm := after.take (i + 1)
    let rest := after.drop (i + 1)
    if nm.all (fun ch => ch ≠ '\n') &&
        (match rest with | r :: _ => isWSChar r | [] => false) then
      some (nm, rest)
    else none)

/-- One match of `/### (.+?)\s+([\s\S]*?)(?=###|$)/g` at the current
position: sub-heading name, then greedy whitespace, then the body up to the
next `###` or the end; returns the pair and the rest of the input. -/
def elemMatchAt (cs : List Char) : Option ((List Char × List Char) × List Char) :=
  if startsL "### ".data cs then
    match elemNameSplit (cs.drop 4) with
    | none => none
    | some (nm, rest) =>
      let ws := rest.takeWhile isWSChar
      let body := untilStop "###".data (rest.drop ws.length)
      some ((nm, body), (rest.drop ws.length).drop body.length)
  else none

/-- All matches of the sub-heading regex, scanning left to right. -/
def elemScanAux : Nat → List Char → List (List Char × List Char)
  | 0, _ => []
  | _, [] => []
  | fuel + 1, c :: cs =>
    match elemMatchAt (c :: cs) with
    | some (nb, rest) => nb :: elemScanAux fuel rest
    | none => elemScanAux fuel cs

/-- Global sub-heading scan (`while (m = re.exec(text)) !== null`). -/
def elemScan (cs : List Char) : List (List Char × List Char) :=
  elemScanAux cs.length cs

/-- Scan for a `Label:` prefix case-insensitively followed by `\s+`; capture
until the (case-insensitive) stop label or the end. -/
def labelCapWSAux (label stop : List Char) : Nat → List Char → Option (List Char)
  | _, [] => none
  | 0, _ => none
  | fuel + 1, c :: cs =>
    if ciStarts label (c :: cs) then
      let after := (c :: cs).drop label.length
      let ws := after.takeWhile isWSChar
      if ws.isEmpty then labelCapWSAux label stop fuel cs
      else some (untilStopCI stop (after.drop ws.length))
    else labelCapWSAux label stop fuel cs

/-- `text.match(/Label:\s+([\s\S]*?)(?=Stop|$)/i)`. -/
def labelCapWS (text : List Char) (label stop : String) : Option (List Char) :=
  labelCapWSAux label.data stop.data text.length text

/-- Scan for a `Label:` prefix case-insensitively followed by `\s+`; capture
everything to the end (`([\s\S]*)`). -/
def labelCapAllAux (label : List Char) : Nat → List Char → Option (List Char)
  | _, [] => none
  | 0, _ => none
  | fuel + 1, c :: cs =>
    if ciStarts label (c :: cs) then
      let after := (c :: cs).drop label.length
      let ws := after.takeWhile isWSChar
      if ws.isEmpty then labelCapAllAux label fuel cs
      else some (after.drop ws.length)
    else labelCapAllAux label fuel cs

/-- `text.match(/Label:\s+([\s\S]*)/i)`. -/
def labelCapAll (text : List Char) (label : String) : Option (List Char) :=
  labelCapAllAux label.data text.length text

/-- One compatibility element (type-definitions.ts lines 198-204). -/
structure CompatibilityElement where
  element_type : String
  element_id : String
  name : String
  description : String
  compatibility_explanation : String
deriving DecidableEq

/-- One synthesis strategy (type-definitions.ts lines 206-212). -/
structure SynthesisStrategy where
  strategy_name : String
  description : String
  benefits : List String
  limitations : List String
  recommended : Bool
deriving DecidableEq

/-- Compatibility analysis result (type-definitions.ts lines 191-196). -/
structure CompatibilityAnalysis where
  fully_compatible : List CompatibilityElement
  potentially_compatible : List CompatibilityElement
  incompatible : List CompatibilityElement
  synthesis_strategies : List SynthesisStrategy
deriving DecidableEq

/-- `extractCompatibilityExplanation` (claude-service.ts lines 789-803):
split on the section-kind-specific label and take the part right after its
first occurrence, or the whole text when the label is absent. -/
def extractCompatibilityExplanation (text : List Char) (type : String) :
    List Char :=
  let label :=
    if type = "fully" then "Причина совместимости:".data
    else if type = "potentially" then "Условия совместимости:".data
    else "Причина несовместимости:".data
  if hasSub label text then trimL ((splitLit label text).getD 1 [])
  else text

/-- `extractCompatibilityElements` (claude-service.ts lines 757-784): one
element per `###` sub-heading, its kind guessed from arrow/keyword cues. -/
def extractCompatibilityElements (text : List Char) (type : String) :
    List CompatibilityElement :=
  (elemScan text).map (fun nb =>
    let elementName := trimL nb.1
    let elementContent := trimL nb.2
    let elementType :=
      if hasSub "->".data elementName || hasSub "связь".data elementContent
          || hasSub "отношение".data elementContent then "connection"
      else "category"
    { element_type := elementType, element_id := "",
      name := String.mk elementName,
      description := String.mk elementContent,
      compatibility_explanation :=
        String.mk (extractCompatibilityExplanation elementContent type) })

/-- One parsed synthesis strategy (claude-service.ts lines 717-744). -/
def strategyOf (strategyName strategyContent : List Char) : SynthesisStrategy :=
  { strategy_name := String.mk strategyName,
    description :=
      match labelCapWS strategyContent "Описание:" "Преимущества:" with
      | some m => String.mk (trimL m)
      | none => "",
    benefits :=
      match labelCapWS strategyContent "Преимущества:" "Ограничения:" with
      | some m => bulletItems m
      | none => [],
    limitations :=
      match labelCapWS strategyContent "Ограничения:" "Рекомендуется:" with
      | some m => bulletItems m
      | none => [],
    recommended :=
      match labelCapAll strategyContent "Рекомендуется:" with
      | some m => decide (lowerList (trimL m) = "да".data)
      | none => false }

/-- The response-parsing block of `analyseSynthesisCompatibility`
(claude-service.ts lines 682-747). -/
def analyseCompatibilityExtract (response : String) : CompatibilityAnalysis :=
  let r := response.data
  { fully_compatible :=
      match sectionCI r "## Полностью совместимые элементы" with
      | some cap => extractCompatibilityElements cap "fully"
      | none => [],
    potentially_compatible :=
      match sectionCI r "## Потенциально совместимые элементы" with
      | some cap => extractCompatibilityElements cap "potentially"
      | none => [],
    incompatible :=
      match sectionCI r "## Принципиально несовместимые элементы" with
      | some cap => extractCompatibilityElements cap "incompatible"
      | none => [],
    synthesis_strategies :=
      match sectionCI r "## Возможные стратегии синтеза" with
      | some cap => (elemScan cap).map (fun nb => strategyOf (trimL nb.1) (trimL nb.2))
      | none => [] }

/-- Fold decimal digits into a natural number. -/
def digitsToNat (ds : List Char) : Nat :=
  ds.foldl (fun acc c => acc * 10 + (c.toNat - 48)) 0

/-- `parseFloat` on the score capture `(\d+(?:\.\d+)?)`: integer part plus
an optional fractional part. -/
def parseScoreQ (ip fp : List Char) : ℚ :=
  (digitsToNat ip : ℚ) + (digitsToNat fp : ℚ) / ((10 : ℚ) ^ fp.length)

/-- After a dimension heading: `\s+(\d+(?:\.\d+)?)\s*\/\s*1(?:\n|\r\n)`
then the analysis capture up to the next `##` or the end.  Returns the
parsed score and the raw analysis capture, or `none` when the shape is not
met at this occurrence. -/
def dimAfterHeading (after : List Char) : Option (ℚ × List Char) :=
  let ws := after.takeWhile isWSChar
  if ws.isEmpty then none
  else
    let cs1 := after.drop ws.length
    let ip := cs1.takeWhile isDigitChar
    if ip.isEmpty then none
    else
      let cs2 := cs1.drop ip.length
      let step := fun (fp : List Char) (cs3 : List Char) =>
        let cs4 := cs3.drop (cs3.takeWhile isWSChar).length
        match cs4 with
        | '/' :: cs5 =>
          let cs6 := cs5.drop (cs5.takeWhile isWSChar).length
          match cs6 with
          | '1' :: cs7 =>
            match cs7 with
            | '\n' :: cs8 => some (parseScoreQ ip fp, untilHashes cs8)
            | '\x0d' :: '\n' :: cs8 => some (parseScoreQ ip fp, untilHashes cs8)
            | _ => none
          | _ => none
        | _ => none
      match cs2 with
      | '.' :: cs3 =>
        let fp := cs3.takeWhile isDigitChar
        if fp.isEmpty then step [] cs2 else step fp (cs3.drop fp.length)
      | _ => step [] cs2

/-- Scan for a dimension heading case-insensitively and parse its score and
analysis; occurrences whose tail does not fit the score shape are skipped. -/
def dimMatchAux (heading : List Char) : Nat → List Char → Option (ℚ × List Char)
  | _, [] => none
  | 0, _ => none
  | fuel + 1, c :: cs =>
    if ciStarts heading (c :: cs) then
      match dimAfterHeading ((c :: cs).drop heading.length) with
      | some r => some r
      | none => dimMatchAux heading fuel cs
    else dimMatchAux heading fuel cs

/-- `response.match(/## H\s+(\d+(?:\.\d+)?)\s*\/\s*1(?:\n|\r\n)([\s\S]*?)(?=##|$)/i)`. -/
def dimMatch (resp : List Char) (heading : String) : Option (ℚ × List Char) :=
  dimMatchAux heading.data resp.length resp

/-- Scan for a `Label:` prefix case-insensitively with no following `\s+`
requirement; capture until the stop or the end, as in
`/Проблемы:([\s\S]*?)(?=\n\n|$)/i`. -/
def labelCap0Aux (label stop : List Char) : Nat → List Char → Option (List Char)
  | _, [] => none
  | 0, _ => none
  | fuel + 1, c :: cs =>
    if ciStarts label (c :: cs) then
      some (untilStopCI stop ((c :: cs).drop label.length))
    else labelCap0Aux label stop fuel cs

/-- `text.match(/Label:([\s\S]*?)(?=Stop|$)/i)`. -/
def labelCap0 (text : List Char) (label stop : String) : Option (List Char) :=
  labelCap0Aux label.data stop.data text.length text

/-- The `internal_consistency` dimension record
(type-definitions.ts lines 237-241). -/
structure InternalConsistency where
  score : ℚ
  analysis : String
  issues : Option (List String)
deriving DecidableEq

/-- The `philosophical_novelty` dimension record (lines 242-246). -/
structure PhilosophicalNovelty where
  score : ℚ
  analysis : String
  novel_elements : Option (List String)
deriving DecidableEq

/-- The `preservation_of_value` dimension record (lines 247-252). -/
structure PreservationOfValue where
  score : ℚ
  analysis : String
  preserved_elements : Option (List String)
  lost_elements : Option (List String)
deriving DecidableEq

/-- The `contradiction_resolution` dimension record (lines 253-258). -/
structure ContradictionResolution where
  score : ℚ
  analysis : String
  resolved_contradictions : Option (List String)
  remaining_contradictions : Option (List String)
deriving DecidableEq

/-- One potential issue (lines 259-263). -/
structure PotentialIssue where
  severity : Severity
  issue : String
  potential_solution : Option String
deriving DecidableEq

/-- Critical analysis result (type-definitions.ts lines 236-264). -/
structure CriticalAnalysis where
  internal_consistency : InternalConsistency
  philosophical_novelty : PhilosophicalNovelty
  preservation_of_value : PreservationOfValue
  contradiction_resolution : ContradictionResolution
  potential_issues : List PotentialIssue
deriving DecidableEq

/-- The name capture of the potential-issue sub-heading regex
`/### (.+?)\s+Серьезность: (.+?)\s+([\s\S]*?)(?=###|$)/g`: shortest
nonempty newline-free prefix followed by whitespace and the literal label. -/
def issueNameSplit (after : List Char) : Option (List Char × List Char) :=
  firstSome (List.range after.length) (fun i =>
    let nm := after.take (i + 1)
    let rest := after.drop (i + 1)
    let ws := rest.takeWhile isWSChar
    if nm.all (fun ch => ch ≠ '\n') && !ws.isEmpty &&
        startsL "Серьезность: ".data (rest.drop ws.length) then
      some (nm, (rest.drop ws.length).drop "Серьезность: ".data.length)
    else none)

/-- The severity capture `(.+?)\s+` after the label: shortest nonempty
newline-free prefix followed by a whitespace character. -/
def issueSevSplit (after : List Char) : Option (List Char × List Char) :=
  elemNameSplit after

/-- One match of the potential-issue sub-heading regex at the current
position. -/
def issueMatchAt (cs : List Char) :
    Option ((List Char × List Char × List Char) × List Char) :=
  if startsL "### ".data cs then
    match issueNameSplit (cs.drop 4) with
    | none => none
    | some (nm, afterLabel) =>
      match issueSevSplit afterLabel with
      | none => none
      | some (sev, rest) =>
        let ws := rest.takeWhile isWSChar
        let body := untilStop "###".data (rest.drop ws.length)
        some ((nm, sev, body), (rest.drop ws.length).drop body.length)
  else none

/-- Global scan for potential-issue sub-headings. -/
def issueScanAux : Nat → List Char → List (List Char × List Char × List Char)
  | 0, _ => []
  | _, [] => []
  | fuel + 1, c :: cs =>
    match issueMatchAt (c :: cs) with
    | some (m, rest) => m :: issueScanAux fuel rest
    | none => issueScanAux fuel cs

/-- All matches of the potential-issue sub-heading regex. -/
def issueScan (cs : List Char) : List (List Char × List Char × List Char) :=
  issueScanAux cs.length cs

/-- Severity of a potential issue (claude-service.ts lines 1181-1186):
lowercased keyword match on the severity capture, defaulting to medium. -/
def issueSeverityOf (severityText : List Char) : Severity :=
  let t := lowerList (trimL severityText)
  if hasSub "низк".data t || hasSub "low".data t then Severity.low
  else if hasSub "высок".data t || hasSub "high".data t then Severity.high
  else Severity.medium

/-- One parsed potential issue (claude-service.ts lines 1176-1204). -/
def potentialIssueOf (m : List Char × List Char × List Char) : PotentialIssue :=
  let _issueTitle := trimL m.1
  let severityText := m.2.1
  let issueDescription := trimL m.2.2
  let solutionMatch := labelCapWS issueDescription "Потенциальное решение:" "\n\n"
  let issue :=
    if hasSub "Потенциальное решение:".data issueDescription then
      trimL ((splitLit "Потенциальное решение:".data issueDescription).getD 0 [])
    else issueDescription
  { severity := issueSeverityOf severityText,
    issue := String.mk issue,
    potential_solution :=
      match solutionMatch with
      | some sol => some (String.mk (trimL sol))
      | none => none }

/-- One scored dimension with its sub-list extraction running on the trimmed
analysis text. -/
def dimOrDefault (resp : List Char) (heading : String) : ℚ × List Char :=
  match dimMatch resp heading with
  | some (sc, cap) => (sc, trimL cap)
  | none => (0, [])

/-- The response-parsing block of `criticallyAnalyzeSynthesis`
(claude-service.ts lines 1060-1206): four score/analysis dimensions with
optional labeled sub-lists, then the potential-issues section.  When a
dimension heading is absent its score stays `0`, its analysis stays empty
and its optional lists stay `none`; the raw response text is not preserved
anywhere. -/
def criticallyAnalyzeExtract (response : String) : CriticalAnalysis :=
  let r := response.data
  let ic :=
    match dimMatch r "## Внутренняя согласованность" with
    | none => { score := 0, analysis := "", issues := none : InternalConsistency }
    | some (sc, cap) =>
      let analysis := trimL cap
      { score := sc, analysis := String.mk analysis,
        issues :=
          match labelCap0 analysis "Проблемы:" "\n\n" with
          | some sub => some (bulletItems sub)
          | none => none }
  let pn :=
    match dimMatch r "## Философская новизна" with
    | none =>
      { score := 0, analysis := "", novel_elements := none : PhilosophicalNovelty }
    | some (sc, cap) =>
      let analysis := trimL cap
      { score := sc, analysis := String.mk analysis,
        novel_elements :=
          match labelCap0 analysis "Новые элементы:" "\n\n" with
          | some sub => some (bulletItems sub)
          | none => none }
  let pv :=
    match dimMatch r "## Сохранение ценных аспектов" with
    | none =>
      { score := 0, analysis := "", preserved_elements := none,
        lost_elements := none : PreservationOfValue }
    | some (sc, cap) =>
      let analysis := trimL cap
      { score := sc, analysis := String.mk analysis,
        preserved_elements :=
          match labelCap0 analysis "Сохраненные элементы:" "Утраченные элементы:" with
          | some sub => some (bulletItems sub)
          | none => none,
        lost_elements :=
          match labelCap0 analysis "Утраченные элементы:" "\n\n" with
          | some sub => some (bulletItems sub)
          | none => none }
  let cr :=
    match dimMatch r "## Разрешение противоречий" with
    | none =>
      { score := 0, analysis := "", resolved_contradictions := none,
        remaining_contradictions := none : ContradictionResolution }
    | some (sc, cap) =>
      let analysis := trimL cap
      { score := sc, analysis := String.mk analysis,
        resolved_contradictions :=
          match labelCap0 analysis "Разрешенные противоречия:"
              "Оставшиеся противоречия:" with
          | some sub => some (bulletItems sub)
          | none => none,
        remaining_contradictions :=
          match labelCap0 analysis "Оставшиеся противоречия:" "\n\n" with
          | some sub => some (bulletItems sub)
          | none => none }
  let issues :=
    match sectionCI0 r "## Потенциальные проблемы" with
    | some cap => (issueScan cap).map potentialIssueOf
    | none => []
  { internal_consistency := ic, philosophical_novelty := pn,
    preservation_of_value := pv, contradiction_resolution := cr,
    potential_issues := issues }

/-- The origin-note label `Происхождение: ` used by the synthesis regexes. -/
def originLabel : List Char := "Происхождение: ".data

/-- The literal prefix of the synthesis title regex
`/# Синтезированная концепция: (.+?)(?=\n|$)/` (no flags). -/
def titleLit : List Char := "# Синтезированная концепция: ".data

/-- Scan for the title prefix (case-sensitively); capture the nonempty run
of non-newline characters after it. -/
def titleScanAux : Nat → List Char → Option (List Char)
  | _, [] => none
  | 0, _ => none
  | fuel + 1, c :: cs =>
    if startsL titleLit (c :: cs) then
      let run := ((c :: cs).drop titleLit.length).takeWhile (fun ch => ch ≠ '\n')
      if run.isEmpty then titleScanAux fuel cs else some run
    else titleScanAux fuel cs

/-- `response.match(/# Синтезированная концепция: (.+?)(?=\n|$)/)`. -/
def titleScan (resp : List Char) : Option (List Char) :=
  titleScanAux resp.length resp

/-- Lookahead `(?=###|$)` of the synthesis category regex (`$` is
end-of-input: no `m` flag). -/
def catLA (cs : List Char) : Bool :=
  startsL "###".data cs || cs.isEmpty

/-- One match of `/### (.+?)\s+(.+?)(?:\nПроисхождение: (.+?))?(?=###|$)/gs`
at the current position (dotAll: both captures may span lines). -/
def catMatchAt (cs : List Char) :
    Option ((List Char × List Char × Option (List Char)) × List Char) :=
  if startsL "### ".data cs then
    lazyCap (cs.drop 4) (fun nm rest1 =>
      greedyWS rest1 (fun rest2 =>
        lazyCap rest2 (fun df rest3 =>
          (match rest3 with
           | '\n' :: r4 =>
             if startsL originLabel r4 then
               lazyCap (r4.drop originLabel.length) (fun og rest5 =>
                 if catLA rest5 then some ((nm, df, some og), rest5) else none)
             else none
           | _ => none)
          <|> (if catLA rest3 then some ((nm, df, none), rest3) else none))))
  else none

/-- Global scan of the synthesis category regex. -/
def catScanAux : Nat → List Char → List (List Char × List Char × Option (List Char))
  | 0, _ => []
  | _, [] => []
  | fuel + 1, c :: cs =>
    match catMatchAt (c :: cs) with
    | some (m, rest) => m :: catScanAux fuel rest
    | none => catScanAux fuel cs

/-- All category matches of the `## Категории` section text. -/
def catScan (cs : List Char) : List (List Char × List Char × Option (List Char)) :=
  catScanAux cs.length cs

/-- Lookahead `(?=\n-|\n##|$)` of the synthesis connection regex. -/
def connLA (cs : List Char) : Bool :=
  startsL "\n-".data cs || startsL "\n##".data cs || cs.isEmpty

/-- The arrow alternation `(->|<->|<-)`, tried in source order. -/
def arrowAt (cs : List Char) : Option (List Char × List Char) :=
  if startsL "->".data cs then some ("->".data, cs.drop 2)
  else if startsL "<->".data cs then some ("<->".data, cs.drop 3)
  else if startsL "<-".data cs then some ("<-".data, cs.drop 2)
  else none

/-- Raw captures of one synthesis connection bullet. -/
structure ConnRaw where
  src : List Char
  arrow : List Char
  tgt : List Char
  typ : List Char
  desc : Option (List Char)
  origin : Option (List Char)

/-- The optional origin-note tail and lookahead of the connection regex. -/
def connAfterDesc (src arrow tgt typ : List Char) (desc : Option (List Char))
    (r : List Char) : Option (ConnRaw × List Char) :=
  (match r with
   | '\n' :: r2 =>
     if startsL originLabel r2 then
       lazyCap (r2.drop originLabel.length) (fun og r3 =>
         if connLA r3 then
           some ({ src := src, arrow := arrow, tgt := tgt, typ := typ,
                   desc := desc, origin := some og }, r3)
         else none)
     else none
   | _ => none)
  <|> (if connLA r then
        some ({ src := src, arrow := arrow, tgt := tgt, typ := typ,
                desc := desc, origin := none }, r)
       else none)

/-- The optional `: description` tail of the connection regex. -/
def connAfterType (src arrow tgt typ : List Char) (rest8 : List Char) :
    Option (ConnRaw × List Char) :=
  (match rest8 with
   | ':' :: ' ' :: r9 =>
     lazyCap r9 (fun desc r10 => connAfterDesc src arrow tgt typ (some desc) r10)
   | _ => none)
  <|> connAfterDesc src arrow tgt typ none rest8

/-- One match of the connection bullet regex (flags `gs`)
`- (.+?) (->|<->|<-) (.+?) \((.+?)\)(?:: (.+?))?(?:\nПроисхождение: (.+?))?(?=\n-|\n##|$)`
at the current position. -/
def connMatchAt (cs : List Char) : Option (ConnRaw × List Char) :=
  match cs with
  | '-' :: ' ' :: cs1 =>
    lazyCap cs1 (fun src rest1 =>
      match rest1 with
      | ' ' :: rest2 =>
        match arrowAt rest2 with
        | some (arrow, rest3) =>
          match rest3 with
          | ' ' :: rest4 =>
            lazyCap rest4 (fun tgt rest5 =>
              match rest5 with
              | ' ' :: '(' :: rest6 =>
                lazyCap rest6 (fun typ rest7 =>
                  match rest7 with
                  | ')' :: rest8 => connAfterType src arrow tgt typ rest8
                  | _ => none)
              | _ => none)
          | _ => none
        | none => none
      | _ => none)
  | _ => none

/-- Global scan of the connection bullet regex. -/
def connScanAux : Nat → List Char → List ConnRaw
  | 0, _ => []
  | _, [] => []
  | fuel + 1, c :: cs =>
    match connMatchAt (c :: cs) with
    | some (m, rest) => m :: connScanAux fuel rest
    | none => connScanAux fuel cs

/-- All connection matches of the `## Связи` section text. -/
def connScan (cs : List Char) : List ConnRaw :=
  connScanAux cs.length cs

/-- One materialized category of the partial synthesis graph
(claude-service.ts lines 968-978), with its temporary ordinal identifier. -/
structure SynthCategory where
  category_id : String
  name : String
  definition : String
  source : String
deriving DecidableEq

/-- One materialized connection of the partial synthesis graph
(claude-service.ts lines 979-998); unresolved endpoint names leave the
corresponding identifier empty. -/
structure SynthConnection where
  connection_id : String
  source_category_id : String
  target_category_id : String
  connection_type : String
  direction : String
  description : String
  source : String
deriving DecidableEq

/-- The partial `ConceptGraph` that `synthesizeConcepts` builds (lines
964-999). -/
structure SynthGraph where
  concept_name : String
  concept_description : String
  categories : List SynthCategory
  connections : List SynthConnection
deriving DecidableEq

/-- One textual category extracted from the `## Категории` section
(claude-service.ts lines 886-896). -/
structure NewCategory where
  name : String
  definition : String
  source : String
deriving DecidableEq

/-- One textual connection extracted from the `## Связи` section
(claude-service.ts lines 908-925); `<-` maps to `directed` exactly as in
the source. -/
structure NewConnection where
  source_category : String
  target_category : String
  connection_type : String
  direction : String
  description : String
  source : String
deriving DecidableEq

/-- The category extraction of `synthesizeConcepts` (lines 877-897). -/
def synthNewCategories (r : List Char) : List NewCategory :=
  match sectionCI r "## Категории" with
  | some cap =>
    (catScan cap).map (fun m =>
      { name := String.mk (trimL m.1),
        definition := String.mk (trimL m.2.1),
        source :=
          match m.2.2 with
          | some og => String.mk (trimL og)
          | none => "" })
  | none => []

/-- The connection extraction of `synthesizeConcepts` (lines 899-926). -/
def synthNewConnections (r : List Char) : List NewConnection :=
  match sectionCI r "## Связи" with
  | some cap =>
    (connScan cap).map (fun m =>
      { source_category := String.mk (trimL m.src),
        target_category := String.mk (trimL m.tgt),
        connection_type := String.mk (trimL m.typ),
        direction :=
          if m.arrow = "->".data then "directed"
          else if m.arrow = "<->".data then "bidirectional"
          else "directed",
        description :=
          match m.desc with
          | some d => String.mk (trimL d)
          | none => "",
        source :=
          match m.origin with
          | some og => String.mk (trimL og)
          | none => "" })
  | none => []

/-- The response-parsing and graph-materialization block of
`synthesizeConcepts` (claude-service.ts lines 871-1003): extract title,
description, categories and connections, assign temporary ordinal category
identifiers, then build the `partialGraph` object literal.  The
`connections:` property initializer (lines 979-998) calls
`newConnections.map` with a callback that reads `partialGraph.categories`
— a reference to the `const partialGraph` binding from inside its own
initializer, which is still in its temporal dead zone.  Hence the first
parsed connection bullet raises a ReferenceError that the enclosing catch
rethrows as `Failed to synthesize concepts` (modelled as `Except.error`);
only when no connection bullet parses does the object literal finish, with
an empty `connections` list.  The endpoint-resolution code inside the
callback is consequently dead and is not modelled. -/
def synthesizeExtract (conceptNames : List String) (response : String) :
    Except Unit SynthGraph :=
  let r := response.data
  let newConceptName :=
    match titleScan r with
    | some nm => String.mk (trimL nm)
    | none => "Синтез: " ++ String.intercalate " + " conceptNames
  let newConceptDesc :=
    match sectionCI r "## Описание" with
    | some cap => String.mk (trimL cap)
    | none => ""
  let newCategories := synthNewCategories r
  let newConnections := synthNewConnections r
  let cats := newCategories.mapIdx (fun idx c =>
    { category_id := "new_category_" ++ toString idx,
      name := c.name, definition := c.definition, source := c.source
      : SynthCategory })
  match newConnections with
  | [] =>
    Except.ok
      { concept_name := newConceptName, concept_description := newConceptDesc,
        categories := cats, connections := [] }
  | _ :: _ => Except.error ()

/-- Lookahead `(?=\n\d+\.|$)` of the thesis regex; with the `m` flag, `$`
matches at the end of input and before every newline. -/
def thesisLA (cs : List Char) : Bool :=
  (match cs with
   | '\n' :: cs2 =>
     let ds := cs2.takeWhile isDigitChar
     !ds.isEmpty &&
       (match cs2.drop ds.length with
        | '.' :: _ => true
        | _ => false)
   | _ => false)
  || (match cs with
      | [] => true
      | '\n' :: _ => true
      | _ => false)

/-- One optional continuation-line group of the thesis regex:
`\n\s+-\s+Label\s+(.+?)` where `Label` is `Источник:` or `Обоснование:`;
the lazy capture and the rest after it are handed to the continuation. -/
def tryLabelGroup {β : Type} (label : List Char) (cs : List Char)
    (k : List Char → List Char → Option β) : Option β :=
  match cs with
  | '\n' :: cs1 =>
    greedyWS cs1 (fun cs2 =>
      match cs2 with
      | '-' :: cs3 =>
        greedyWS cs3 (fun cs4 =>
          if startsL label cs4 then
            greedyWS (cs4.drop label.length) (fun cs5 => lazyCap cs5 k)
          else none)
      | _ => none)
  | _ => none

/-- The two optional groups and the lookahead of the thesis regex, tried in
the regex engine's preference order: with the source group first, within it
with the justification group first. -/
def thesisTail {β : Type} (cs : List Char)
    (emit : Option (List Char) → Option (List Char) → List Char → Option β) :
    Option β :=
  (tryLabelGroup "Источник:".data cs (fun b rest1 =>
    (tryLabelGroup "Обоснование:".data rest1 (fun c rest2 =>
      if thesisLA rest2 then emit (some b) (some c) rest2 else none))
    <|> (if thesisLA rest1 then emit (some b) none rest1 else none)))
  <|> (tryLabelGroup "Обоснование:".data cs (fun c rest2 =>
        if thesisLA rest2 then emit none (some c) rest2 else none))
  <|> (if thesisLA cs then emit none none cs else none)

/-- Raw captures of one thesis entry. -/
structure ThesisRaw where
  text : List Char
  sources : Option (List Char)
  just : Option (List Char)
deriving DecidableEq

/-- One match of the thesis regex (flags `gms`)
`^\d+\.\s+(.+?)(?:\n\s+-\s+Источник:\s+(.+?))?(?:\n\s+-\s+Обоснование:\s+(.+?))?(?=\n\d+\.|$)`
at an anchor position; returns the captures and the rest of the input at
the lookahead position. -/
def thesisMatchAt (cs : List Char) : Option (ThesisRaw × List Char) :=
  let ds := cs.takeWhile isDigitChar
  if ds.isEmpty then none
  else
    match cs.drop ds.length with
    | '.' :: cs2 =>
      greedyWS cs2 (fun cs3 =>
        lazyCap cs3 (fun a rest =>
          thesisTail rest (fun b c rest2 =>
            some ({ text := a, sources := b, just := c }, rest2))))
    | _ => none

/-- The `while ((match = thesisRegex.exec(response)) !== null)` loop: `^`
(with the `m` flag) anchors a match attempt at the start of input and right
after every newline; after a match the scan resumes at the lookahead
position. -/
def thesisScanAux : Nat → Bool → List Char → List ThesisRaw
  | 0, _, _ => []
  | _, _, [] => []
  | fuel + 1, anchorOk, c :: cs =>
    match (if anchorOk then thesisMatchAt (c :: cs) else none) with
    | some (tr, rest) =>
      tr :: thesisScanAux fuel
        (match ((c :: cs).take ((c :: cs).length - rest.length)).getLast? with
         | some ch => ch = '\n'
         | none => false) rest
    | none => thesisScanAux fuel (c = '\n') cs

/-- All thesis matches of a response. -/
def thesisScan (cs : List Char) : List ThesisRaw :=
  thesisScanAux cs.length true cs

/-- Thesis generation parameters (type-definitions.ts lines 360-367). -/
structure ThesisGenerationParams where
  count : Nat
  type : String
  detail_level : Option String
  style : Option String
  focus_categories : Option (List String)
  useWeights : Bool
deriving DecidableEq

/-- One category of a concept graph (type-definitions.ts lines 28-40),
restricted to the fields the embedded operations read; dates, provenance
and attribute lists play no role in the response parsing. -/
structure Category where
  category_id : String
  name : String
  definition : String
deriving DecidableEq

/-- One connection of a concept graph (type-definitions.ts lines 53-68),
restricted to the fields the embedded operations read. -/
structure Connection where
  connection_id : String
  source_category_id : String
  target_category_id : String
  connection_type : String
  direction : String
  description : Option String
deriving DecidableEq

/-- A concept graph (type-definitions.ts lines 146-156), restricted to the
fields the embedded operations read. -/
structure ConceptGraph where
  concept_id : String
  concept_name : String
  concept_description : Option String
  categories : List Category
  connections : List Connection
deriving DecidableEq

/-- The `derived_from` record of a thesis (type-definitions.ts line 87). -/
structure DerivedFrom where
  categories : List String
  connections : List String
deriving DecidableEq

/-- A generated thesis (type-definitions.ts lines 82-94), restricted to the
fields `generateTheses` fills; the `created_at`/`last_modified` dates are
fresh `Date` objects and are not modelled. -/
structure Thesis where
  thesis_id : String
  concept_id : String
  text : String
  type : String
  derived_from : DerivedFrom
  generation_parameters : ThesisGenerationParams
  used_weights : Bool
  style : Option String
deriving DecidableEq

/-- Match of the separator regex `,\s*` at the head of the input. -/
def commaMarkerStarts (cs : List Char) : Option (List Char) :=
  match cs with
  | ',' :: cs2 => some (cs2.drop (cs2.takeWhile isWSChar).length)
  | _ => none

/-- `String.prototype.split(/,\s*/)`. -/
def splitCommaAux : Nat → List Char → List Char → List (List Char)
  | _, acc, [] => [acc.reverse]
  | 0, acc, cs => [acc.reverse ++ cs]
  | fuel + 1, acc, c :: cs =>
    match commaMarkerStarts (c :: cs) with
    | some rest => acc.reverse :: splitCommaAux fuel [] rest
    | none => splitCommaAux fuel (c :: acc) cs

/-- Split the sources text on commas with trailing whitespace. -/
def splitCommaWS (cs : List Char) : List (List Char) :=
  splitCommaAux cs.length [] cs

/-- The category-name resolution of `generateTheses` (claude-service.ts
lines 564-570): split the sources text on `,\s*`, match each name against
the graph's category names by exact case-insensitive comparison, keep the
matched category identifiers and silently drop the rest. -/
def resolveCategories (conceptGraph : ConceptGraph) (sourcesText : List Char) :
    List String :=
  ((splitCommaWS sourcesText).map (fun name =>
    match conceptGraph.categories.find?
        (fun c => lowerList c.name.data = lowerList name) with
    | some category => some category.category_id
    | none => none)).filterMap id

/-- The response-parsing block of `generateTheses` (claude-service.ts lines
551-588): scan the numbered thesis entries, resolve the source names to
category identifiers, and build one thesis per entry.  The
`connections` list is the literal empty array of line 572; the
justification capture is extracted but never stored. -/
def generateThesesExtract (conceptGraph : ConceptGraph)
    (parameters : ThesisGenerationParams) (response : String) : List Thesis :=
  (thesisScan response.data).map (fun tr =>
    let thesisText := trimL tr.text
    let sourcesText :=
      match tr.sources with
      | some b => trimL b
      | none => []
    let categories := resolveCategories conceptGraph sourcesText
    let connections : List String := []
    { thesis_id := "",
      concept_id := conceptGraph.concept_id,
      text := String.mk thesisText,
      type := parameters.type,
      derived_from := { categories := categories, connections := connections },
      generation_parameters := parameters,
      used_weights := parameters.useWeights,
      style := parameters.style })

/-- The two-category graph of the thesis scenario. -/
def graph9 : ConceptGraph :=
  { concept_id := "cid", concept_name := "N", concept_description := none,
    categories :=
      [{ category_id := "c1", name := "Being", definition := "d1" },
       { category_id := "c2", name := "Becoming", definition := "d2" }],
    connections := [] }

/-- The generation parameters of the thesis scenario. -/
def params9 : ThesisGenerationParams :=
  { count := 1, type := "ontological", detail_level := none, style := none,
    focus_categories := none, useWeights := false }

/-- The response text of the thesis scenario. -/
def resp9 : String :=
  "1. All is flux.\n   - Источник: Becoming\n   - Обоснование: derived from definition"

/-- The single thesis the scenario produces. -/
def thesis9 : Thesis :=
  { thesis_id := "", concept_id := "cid", text := "All is flux.",
    type := "ontological",
    derived_from := { categories := ["c2"], connections := [] },
    generation_parameters := params9, used_weights := false, style := none }

set_option maxRecDepth 40000 in
/-- C9 (confirmed): on the scenario graph and response, `generateTheses`
yields exactly one thesis whose text is `All is flux.` and whose
`derived_from.categories` is `["c2"]` — the case-insensitive name
`Becoming` resolves to `c2`. -/
theorem claim9_thesis_scenario :
    generateThesesExtract graph9 params9 resp9 = [thesis9]
    ∧ thesis9.text = "All is flux."
    ∧ thesis9.derived_from.categories = ["c2"] := by
  refine ⟨by decide, rfl, rfl⟩

/-- C10 (confirmed): every thesis built by the parsing loop of
`generateTheses` carries an empty `derived_from.connections` — the code
assigns the literal empty array (line 572) and no resolution of connection
identifiers exists. -/
theorem claim10_connections_never_resolved (conceptGraph : ConceptGraph)
    (parameters : ThesisGenerationParams) (response : String) (th : Thesis)
    (hmem : th ∈ generateThesesExtract conceptGraph parameters response) :
    th.derived_from.connections = [] := by
  rcases List.mem_map.mp hmem with ⟨tr, _, hEq⟩
  rw [← hEq]

/-- Witness for C10 at the concrete thesis scenario. -/
theorem claim10_witness : thesis9.derived_from.connections = [] :=
  claim10_connections_never_resolved graph9 params9 resp9 thesis9 (by decide)

/-- The C5 response: a well-formed synthesis reply whose categories section
holds `Unity` and `Multiplicity` sub-headings and whose connections section
holds the scenario bullet. -/
def resp5 : String :=
  "# Синтезированная концепция: Синтез\n## Описание\nОпис\n## Категории\n### Unity\nDef1\n### Multiplicity\nDef2\n## Связи\n- Unity -> Multiplicity (causal): grounds"

set_option maxRecDepth 40000 in
/-- C5 (code bug): on the scenario response the category extraction comes
back empty — the `## Категории` section capture `([\s\S]*?)(?=##|$)` stops
at the first `###` sub-heading marker (which begins with `##`), so
`categoriesText` is empty and no category is ever parsed — while the
connection bullet itself parses with source `Unity` and target
`Multiplicity`.  The `partialGraph` initializer then dereferences its own
still-uninitialized binding inside the connections callback, so
`synthesizeConcepts` throws `Failed to synthesize concepts` instead of
returning a graph whose connection endpoints are the temporary ids of
`Unity` and `Multiplicity` with zero unresolved connections. -/
theorem claim5_synthesis_scenario_fails :
    synthNewCategories resp5.data = []
    ∧ (synthNewConnections resp5.data).map
        (fun c => (c.source_category, c.target_category))
      = [("Unity", "Multiplicity")]
    ∧ synthesizeExtract ["A", "B"] resp5 = Except.error () := by
  refine ⟨by decide, by decide, by rfl⟩

theorem numMarkerStarts_none (c : Char) (cs : List Char)
    (hc : isDigitChar c = false) : numMarkerStarts (c :: cs) = none := by
  unfold numMarkerStarts
  simp [List.takeWhile_cons, hc]

theorem splitNumAux_nodigit :
    ∀ (fuel : Nat) (acc cs : List Char), (∀ c ∈ cs, isDigitChar c = false) →
      splitNumAux fuel acc cs = [acc.reverse ++ cs] := by
  intro fuel
  induction fuel with
  | zero =>
    intro acc cs _
    cases cs with
    | nil => simp [splitNumAux]
    | cons c cs2 => rfl
  | succ f ih =>
    intro acc cs h
    cases cs with
    | nil => simp [splitNumAux]
    | cons c cs2 =>
      have hc : isDigitChar c = false := h c (List.mem_cons_self _ _)
      have h2 : ∀ x ∈ cs2, isDigitChar x = false :=
        fun x hx => h x (List.mem_cons_of_mem _ hx)
      simp only [splitNumAux, numMarkerStarts_none c cs2 hc]
      rw [ih (c :: acc) cs2 h2]
      simp

theorem splitNumbered_nodigit (cs : List Char)
    (h : ∀ c ∈ cs, isDigitChar c = false) : splitNumbered cs = [cs] := by
  unfold splitNumbered
  rw [splitNumAux_nodigit cs.length [] cs h]
  simp

theorem validate_nomarker (s : String)
    (h : ∀ c ∈ s.data, isDigitChar c = false) :
    validateGraphExtract s = Except.ok
      { general_analysis := s, contradictions := [], missing_elements := [],
        improvement_suggestions := [] } := by
  unfold validateGraphExtract
  rw [splitNumbered_nodigit s.data h]
  norm_num

theorem sectionCIAux_nohash (t : List Char) :
    ∀ (fuel : Nat) (cs : List Char), (∀ c ∈ cs, c ≠ '#') →
      sectionCIAux ('#' :: t) fuel cs = none := by
  intro fuel
  induction fuel with
  | zero =>
    intro cs _
    cases cs with
    | nil => rfl
    | cons c cs2 => rfl
  | succ f ih =>
    intro cs h
    cases cs with
    | nil => rfl
    | cons c cs2 =>
      have hci := ciStarts_hash_head_false t c cs2 (h c (List.mem_cons_self _ _))
      simp only [sectionCIAux, hci]
      exact ih cs2 (fun x hx => h x (List.mem_cons_of_mem _ hx))

theorem sectionCI_nohash (s : List Char) (heading : String) (t : List Char)
    (hh : heading.data = '#' :: t) (h : ∀ c ∈ s, c ≠ '#') :
    sectionCI s heading = none := by
  unfold sectionCI
  rw [hh]
  exact sectionCIAux_nohash t s.length s h

theorem sectionCI0Aux_nohash (t : List Char) :
    ∀ (fuel : Nat) (cs : List Char), (∀ c ∈ cs, c ≠ '#') →
      sectionCI0Aux ('#' :: t) fuel cs = none := by
  intro fuel
  induction fuel with
  | zero =>
    intro cs _
    cases cs with
    | nil => rfl
    | cons c cs2 => rfl
  | succ f ih =>
    intro cs h
    cases cs with
    | nil => rfl
    | cons c cs2 =>
      have hci := ciStarts_hash_head_false t c cs2 (h c (List.mem_cons_self _ _))
      simp only [sectionCI0Aux, hci]
      exact ih cs2 (fun x hx => h x (List.mem_cons_of_mem _ hx))

theorem sectionCI0_nohash (s : List Char) (heading : String) (t : List Char)
    (hh : heading.data = '#' :: t) (h : ∀ c ∈ s, c ≠ '#') :
    sectionCI0 s heading = none := by
  unfold sectionCI0
  rw [hh]
  exact sectionCI0Aux_nohash t s.length s h

theorem dimMatchAux_nohash (t : List Char) :
    ∀ (fuel : Nat) (cs : List Char), (∀ c ∈ cs, c ≠ '#') →
      dimMatchAux ('#' :: t) fuel cs = none := by
  intro fuel
  induction fuel with
  | zero =>
    intro cs _
    cases cs with
    | nil => rfl
    | cons c cs2 => rfl
  | succ f ih =>
    intro cs h
    cases cs with
    | nil => rfl
    | cons c cs2 =>
      have hci := ciStarts_hash_head_false t c cs2 (h c (List.mem_cons_self _ _))
      simp only [dimMatchAux, hci]
      exact ih cs2 (fun x hx => h x (List.mem_cons_of_mem _ hx))

theorem dimMatch_nohash (s : List Char) (heading : String) (t : List Char)
    (hh : heading.data = '#' :: t) (h : ∀ c ∈ s, c ≠ '#') :
    dimMatch s heading = none := by
  unfold dimMatch
  rw [hh]
  exact dimMatchAux_nohash t s.length s h

theorem titleScanAux_nohash :
    ∀ (fuel : Nat) (cs : List Char), (∀ c ∈ cs, c ≠ '#') →
      titleScanAux fuel cs = none := by
  intro fuel
  induction fuel with
  | zero =>
    intro cs _
    cases cs with
    | nil => rfl
    | cons c cs2 => rfl
  | succ f ih =>
    intro cs h
    cases cs with
    | nil => rfl
    | cons c cs2 =>
      have hs : startsL titleLit (c :: cs2) = false := by
        rw [show titleLit = '#' :: titleLit.tail from rfl]
        exact startsL_head_ne _ _ _ _ (fun hE => h c (List.mem_cons_self _ _) hE.symm)
      simp only [titleScanAux, hs]
      exact ih cs2 (fun x hx => h x (List.mem_cons_of_mem _ hx))

theorem titleScan_nohash (s : List Char) (h : ∀ c ∈ s, c ≠ '#') :
    titleScan s = none := by
  unfold titleScan
  exact titleScanAux_nohash s.length s h

theorem thesisMatchAt_nodigit (c : Char) (cs : List Char)
    (hc : isDigitChar c = false) : thesisMatchAt (c :: cs) = none := by
  unfold thesisMatchAt
  simp [List.takeWhile_cons, hc]

theorem thesisScanAux_nodigit :
    ∀ (fuel : Nat) (anchorOk : Bool) (cs : List Char),
      (∀ c ∈ cs, isDigitChar c = false) →
      thesisScanAux fuel anchorOk cs = [] := by
  intro fuel
  induction fuel with
  | zero =>
    intro anchorOk cs _
    cases cs with
    | nil => rfl
    | cons c cs2 => rfl
  | succ f ih =>
    intro anchorOk cs h
    cases cs with
    | nil => rfl
    | cons c cs2 =>
      have hc := thesisMatchAt_nodigit c cs2 (h c (List.mem_cons_self _ _))
      have h2 : ∀ x ∈ cs2, isDigitChar x = false :=
        fun x hx => h x (List.mem_cons_of_mem _ hx)
      cases anchorOk with
      | true =>
        simp only [thesisScanAux, hc]
        exact ih _ cs2 h2
      | false =>
        simp only [thesisScanAux]
        exact ih _ cs2 h2

theorem thesisScan_nodigit (cs : List Char)
    (h : ∀ c ∈ cs, isDigitChar c = false) : thesisScan cs = [] := by
  unfold thesisScan
  exact thesisScanAux_nodigit cs.length true cs h

/-- C1 (amended): on an empty response or a response carrying none of the
structural markers (no digit, no `#`), every operation kind's parser
returns without error a result whose collection fields are empty/default.
The raw response text is preserved in the primary free-text field by the
validation parser (`general_analysis`) and the two enrichment parsers
(`extended_description`); the thesis, thesis-development, compatibility,
synthesis and critical-analysis parsers return empty defaults and do not
preserve the raw text anywhere. -/
theorem claim1_parser_defaults (s thesisText : String)
    (conceptGraph : ConceptGraph) (parameters : ThesisGenerationParams)
    (conceptNames : List String)
    (hnd : ∀ c ∈ s.data, isDigitChar c = false)
    (hnh : ∀ c ∈ s.data, c ≠ '#') :
    validateGraphExtract s = Except.ok
      { general_analysis := s, contradictions := [], missing_elements := [],
        improvement_suggestions := [] }
    ∧ enrichCategoryExtract s =
      { extended_description := s, alternative_interpretations := [],
        historical_analogs := [], related_concepts := [] }
    ∧ enrichConnectionExtract s =
      { extended_description := s, alternative_interpretations := [],
        historical_analogs := [], related_concepts := [] }
    ∧ developThesisExtract thesisText s =
      { text := thesisText, justification := "", counterarguments := "",
        historical_analogs := "", practical_implications := "" }
    ∧ generateThesesExtract conceptGraph parameters s = []
    ∧ analyseCompatibilityExtract s =
      { fully_compatible := [], potentially_compatible := [],
        incompatible := [], synthesis_strategies := [] }
    ∧ synthesizeExtract conceptNames s = Except.ok
      { concept_name := "Синтез: " ++ String.intercalate " + " conceptNames,
        concept_description := "", categories := [], connections := [] }
    ∧ criticallyAnalyzeExtract s =
      { internal_consistency := { score := 0, analysis := "", issues := none },
        philosophical_novelty :=
          { score := 0, analysis := "", novel_elements := none },
        preservation_of_value :=
          { score := 0, analysis := "", preserved_elements := none,
            lost_elements := none },
        contradiction_resolution :=
          { score := 0, analysis := "", resolved_contradictions := none,
            remaining_contradictions := none },
        potential_issues := [] } := by
  refine ⟨validate_nomarker s hnd, ?_, ?_, ?_, ?_, ?_, ?_, ?_⟩
  · unfold enrichCategoryExtract
    dsimp only
    rw [sectionCI_nohash s.data "## Расширенное описание" _ rfl hnh,
      sectionCI_nohash s.data "## Альтернативные трактовки" _ rfl hnh,
      sectionCI_nohash s.data "## Исторические аналоги" _ rfl hnh,
      sectionCI_nohash s.data "## Связанные концепты" _ rfl hnh]
  · unfold enrichConnectionExtract
    dsimp only
    rw [sectionCI_nohash s.data "## Философское обоснование" _ rfl hnh,
      sectionCI_nohash s.data "## Возможные контраргументы" _ rfl hnh,
      sectionCI_nohash s.data "## Аналогичные связи" _ rfl hnh]
  · unfold developThesisExtract
    dsimp only
    rw [sectionCI_nohash s.data "## Философское обоснование" _ rfl hnh,
      sectionCI_nohash s.data "## Возможные контраргументы" _ rfl hnh,
      sectionCI_nohash s.data "## Исторические аналоги" _ rfl hnh,
      sectionCI_nohash s.data "## Практические следствия" _ rfl hnh]
  · unfold generateThesesExtract
    rw [thesisScan_nodigit s.data hnd]
    rfl
  · unfold analyseCompatibilityExtract
    dsimp only
    rw [sectionCI_nohash s.data "## Полностью совместимые элементы" _ rfl hnh,
      sectionCI_nohash s.data "## Потенциально совместимые элементы" _ rfl hnh,
      sectionCI_nohash s.data "## Принципиально несовместимые элементы" _ rfl hnh,
      sectionCI_nohash s.data "## Возможные стратегии синтеза" _ rfl hnh]
  · unfold synthesizeExtract synthNewCategories synthNewConnections
    dsimp only
    rw [titleScan_nohash s.data hnh,
      sectionCI_nohash s.data "## Описание" _ rfl hnh,
      sectionCI_nohash s.data "## Категории" _ rfl hnh,
      sectionCI_nohash s.data "## Связи" _ rfl hnh]
    rfl
  · unfold criticallyAnalyzeExtract
    dsimp only
    rw [dimMatch_nohash s.data "## Внутренняя согласованность" _ rfl hnh,
      dimMatch_nohash s.data "## Философская новизна" _ rfl hnh,
      dimMatch_nohash s.data "## Сохранение ценных аспектов" _ rfl hnh,
      dimMatch_nohash s.data "## Разрешение противоречий" _ rfl hnh,
      sectionCI0_nohash s.data "## Потенциальные проблемы" _ rfl hnh]

/-- C1 counterexample: on a marker-free response, the critical-analysis
parser does not place the raw text into any free-text field — the
`analysis` fields come back empty — so the claim that the primary free-text
field always preserves the raw response text is false as stated. -/
theorem claim1_counterexample :
    (criticallyAnalyzeExtract
        "просто текст без маркеров").internal_consistency.analysis = ""
    ∧ "просто текст без маркеров" ≠ "" := by
  refine ⟨by decide, by decide⟩

/-- Witness for C1 at a concrete marker-free response. -/
theorem claim1_witness :
    validateGraphExtract "просто текст" = Except.ok
      { general_analysis := "просто текст", contradictions := [],
        missing_elements := [], improvement_suggestions := [] }
    ∧ generateThesesExtract graph9 params9 "просто текст" = [] :=
  ⟨(claim1_parser_defaults "просто текст" "t" graph9 params9 []
      (by decide) (by decide)).1,
   (claim1_parser_defaults "просто текст" "t" graph9 params9 []
      (by decide) (by decide)).2.2.2.2.1⟩

theorem startsL_hh_of_hash3 (t : List Char) (h : startsL "### ".data t = true) :
    startsL ['#', '#'] t = true := by
  match t with
  | [] => simp [startsL] at h
  | [a] => simp [startsL] at h
  | a :: b :: r =>
    simp [startsL] at h ⊢
    exact ⟨h.1, h.2.1⟩

theorem startsL_hash_one_untilHashes (cs : List Char)
    (h : startsL ['#'] cs = false) : startsL ['#'] (untilHashes cs) = false := by
  cases cs with
  | nil => rfl
  | cons d cs2 =>
    unfold untilHashes
    by_cases hd : startsL ['#', '#'] (d :: cs2) = true
    · rw [if_pos hd]
      rfl
    · rw [if_neg hd]
      simp [startsL] at h ⊢
      exact h

theorem hasSub_hh_untilHashes : ∀ cs : List Char,
    hasSub ['#', '#'] (untilHashes cs) = false := by
  intro cs
  induction cs with
  | nil => rfl
  | cons c cs ih =>
    unfold untilHashes
    by_cases hs : startsL ['#', '#'] (c :: cs) = true
    · rw [if_pos hs]
      rfl
    · rw [if_neg hs]
      have hfirst : startsL ['#', '#'] (c :: untilHashes cs) = false := by
        by_cases hc : c = '#'
        · subst hc
          have h1 : startsL ['#'] cs = false := by
            cases hx : startsL ['#'] cs with
            | false => rfl
            | true =>
              exact absurd (by simp [startsL, hx]) hs
          have h2 := startsL_hash_one_untilHashes cs h1
          simp [startsL] at h2 ⊢
          exact h2
        · exact startsL_head_ne '#' _ c _ (fun hE => hc hE.symm)
      unfold hasSub
      rw [hfirst, ih]
      rfl

theorem catMatchAt_none (c : Char) (cs : List Char)
    (h : startsL ['#', '#'] (c :: cs) = false) : catMatchAt (c :: cs) = none := by
  unfold catMatchAt
  cases hx : startsL "### ".data (c :: cs) with
  | false => rw [if_neg (by simp [hx])]
  | true =>
    have h2 := startsL_hh_of_hash3 (c :: cs) hx
    rw [h] at h2
    exact absurd h2 (by simp)

theorem catScanAux_no_hh : ∀ (fuel : Nat) (cs : List Char),
    hasSub ['#', '#'] cs = false → catScanAux fuel cs = [] := by
  intro fuel
  induction fuel with
  | zero =>
    intro cs _
    cases cs with
    | nil => rfl
    | cons c cs2 => rfl
  | succ f ih =>
    intro cs h
    cases cs with
    | nil => rfl
    | cons c cs2 =>
      have hsplit : startsL ['#', '#'] (c :: cs2) = false
          ∧ hasSub ['#', '#'] cs2 = false := by
        unfold hasSub at h
        constructor
        · cases hx : startsL ['#', '#'] (c :: cs2) with
          | false => rfl
          | true => rw [hx] at h; exact absurd h (by simp)
        · cases hx : hasSub ['#', '#'] cs2 with
          | false => rfl
          | true => rw [hx] at h; exact absurd h (by simp)
      simp only [catScanAux, catMatchAt_none c cs2 hsplit.1]
      exact ih cs2 hsplit.2

theorem sectionCIAux_some_shape (heading : List Char) :
    ∀ (fuel : Nat) (cs r : List Char), sectionCIAux heading fuel cs = some r →
      ∃ x, r = untilHashes x := by
  intro fuel
  induction fuel with
  | zero =>
    intro cs r h
    cases cs with
    | nil => exact absurd h (by simp [sectionCIAux])
    | cons c cs2 => exact absurd h (by simp [sectionCIAux])
  | succ f ih =>
    intro cs r h
    cases cs with
    | nil => exact absurd h (by simp [sectionCIAux])
    | cons c cs2 =>
      unfold sectionCIAux at h
      by_cases hci : ciStarts heading (c :: cs2) = true
      · rw [if_pos hci] at h
        by_cases hws : (((c :: cs2).drop heading.length).takeWhile isWSChar).isEmpty = true
        · rw [if_pos hws] at h
          exact ih cs2 r h
        · rw [if_neg hws] at h
          injection h with h2
          exact ⟨_, h2.symm⟩
      · rw [if_neg hci] at h
        exact ih cs2 r h

/-- For every input, the category extraction of `synthesizeConcepts` is
empty: the `## Категории` section capture stops before the first `##`
occurrence, so it can never contain a `### ` sub-heading, and the category
regex never matches.  This is one half of the C5 failure. -/
theorem synthesis_categories_always_empty (response : String) :
    synthNewCategories response.data = [] := by
  unfold synthNewCategories
  cases hsec : sectionCI response.data "## Категории" with
  | none => rfl
  | some cap =>
    rcases sectionCIAux_some_shape "## Категории".data response.data.length
        response.data cap hsec with ⟨x, hx⟩
    have hscan : catScan cap = [] := by
      unfold catScan
      exact catScanAux_no_hh cap.length cap (hx ▸ hasSub_hh_untilHashes x)
    dsimp only
    rw [hscan]
    rfl

/-- Whenever at least one connection bullet parses, `synthesizeConcepts`
throws: the temporal-dead-zone dereference of `partialGraph` inside its own
`connections:` initializer fires on the first `map` callback invocation.
This is the other half of the C5 failure. -/
theorem synthesize_throws_on_any_connection (conceptNames : List String)
    (response : String) (h : synthNewConnections response.data ≠ []) :
    synthesizeExtract conceptNames response = Except.error () := by
  unfold synthesizeExtract
  dsimp only
  cases hc : synthNewConnections response.data with
  | nil => exact absurd hc h
  | cons a t => rfl

end Claude
